import Mathlib

/-!
# Verification of the selector-resolution engine and bounded HTML extractor

Shallow embedding of the core of `fast-playwright-mcp`:

* `src/types/selectors.ts` — selector data model, type guards, confidence levels;
* `src/services/selector-resolver.ts` — `SelectorResolver` (categorization,
  execution strategies, per-variant resolvers, candidate enumeration);
* `src/types/html-inspection.ts` — `calculateHtmlSize`, `truncateHtml`;
* the `HTMLInspector` (`extractHTML`, `_processAllSelectors`,
  `_extractElementHTML` accept/truncation logic).

Modelling conventions:

* JavaScript strings are modelled as `List Char` (sequences of Unicode scalar
  values).  `byteSize` is the UTF-8 byte length (what
  `new TextEncoder().encode(s).length` computes), `utf16Len` the number of
  UTF-16 code units a character occupies (what JS string indices count).
  JS `substring(0, k)` is `takeUnits k`; the only divergence from JS is a cut
  falling in the middle of a surrogate pair (JS keeps a lone surrogate, the
  model drops the character), which no theorem below depends on.
* The browsing engine (Playwright) is external; it is modelled by a `Page`
  record of query primitives returning lists of elements, exactly the
  primitives the source calls (`locator`, `getByRole`, `getByText`,
  `filter({hasText})`, aria-ref lookup).
* Asynchrony: `Promise.all` over an array of promises yields results in array
  order, so the batch strategies are maps over lists; the staggered
  `setTimeout(index * 10)` delays in the sequential/hybrid strategies affect
  scheduling only, never the order of the returned array.  A per-selector
  `Fate` oracle records whether the underlying resolution completes, rejects,
  or hits the `Promise.race` timeout; `_resolveSelectorWithTimeout` catches
  every rejection and turns it into an error result, which the embedding
  mirrors.  Wall-clock fields (`resolutionTimeMs`, `timing`) are not modelled
  and are fixed at 0.
-/

/-! ## Definitions -/

/-- UTF-8 byte length of one Unicode scalar value. -/
def utf8Len (c : Char) : Nat :=
  if c.toNat < 0x80 then 1
  else if c.toNat < 0x800 then 2
  else if c.toNat < 0x10000 then 3
  else 4

/-- Number of UTF-16 code units of one Unicode scalar value (JS `.length` counts these). -/
def utf16Len (c : Char) : Nat :=
  if c.toNat < 0x10000 then 1 else 2

/-- Source `calculateHtmlSize` (src/types/html-inspection.ts:245):
`new TextEncoder().encode(html).length`, the UTF-8 byte length. -/
def byteSize (s : List Char) : Nat :=
  (s.map utf8Len).sum

/-- JS `.length` of a string: the number of UTF-16 code units. -/
def u16Length (s : List Char) : Nat :=
  (s.map utf16Len).sum

/-- JS `s.substring(0, k)`: the prefix covering the first `k` UTF-16 code units. -/
def takeUnits : Nat → List Char → List Char
  | _, [] => []
  | k, c :: cs => if utf16Len c ≤ k then c :: takeUnits (k - utf16Len c) cs else []

/-- JS `s.lastIndexOf(c)`: UTF-16 index of the last occurrence of `c`, `-1` if absent. -/
def lastIndexOfUnit (c : Char) : List Char → Int
  | [] => -1
  | x :: xs =>
    let r := lastIndexOfUnit c xs
    if 0 ≤ r then (utf16Len x : Int) + r
    else if x = c then 0 else -1

/-- The truncation marker appended by `truncateHtml`. -/
def truncationMarker : List Char := "<!-- TRUNCATED -->".toList

/-- Source `truncateHtml(html, maxSize)` translated from the source:
if the UTF-8 size fits, return the input unchanged; otherwise take
`html.substring(0, maxSize - 100)` (a UTF-16 code-unit cut; JS clamps the
negative case to 0 exactly as `Nat` subtraction does), back up to
`lastIndexOf('<')` when that index exceeds `lastIndexOf('>')`, and append
the marker. -/
def truncateHtml (html : List Char) (maxSize : Nat) : List Char × Bool :=
  if byteSize html ≤ maxSize then (html, false)
  else
    let truncated := takeUnits (maxSize - 100) html
    let lastTag := lastIndexOfUnit '<' truncated
    let safeHtml :=
      if lastIndexOfUnit '>' truncated < lastTag then takeUnits lastTag.toNat truncated
      else truncated
    (safeHtml ++ truncationMarker, true)

/-- Scan a reversed string: `some rest` when a `'<'` is met before any `'>'`
(`rest` is everything before that `'<'`, reversed), `none` otherwise. -/
def cutInsideTag : List Char → Option (List Char)
  | [] => none
  | c :: rest => if c = '<' then some rest else if c = '>' then none else cutInsideTag rest

/-- Reference formulation of the amended truncation rule: cut at
`maxSize - 100` UTF-16 code units (not bytes); if the cut prefix ends inside
a tag — scanning backwards, a `'<'` appears before any `'>'` — drop from that
last `'<'` on; otherwise keep the raw code-unit cut; append the marker. -/
def truncateHtmlAmended (html : List Char) (maxSize : Nat) : List Char × Bool :=
  if byteSize html ≤ maxSize then (html, false)
  else
    let t := takeUnits (maxSize - 100) html
    let safe := match cutInsideTag t.reverse with
      | some r => r.reverse
      | none => t
    (safe ++ truncationMarker, true)

/-- Source `ElementSelector`: the discriminated union of the four selector shapes.
Optional JS fields (`text?`, `tag?`) are `Option String`; a present-but-empty
string is distinct from an absent field, matching the source's truthiness
tests. -/
inductive ElementSelector where
  | ref (ref : String)
  | role (role : String) (text : Option String)
  | css (css : String)
  | text (text : String) (tag : Option String)
deriving DecidableEq, Repr

/-- JS truthiness of an optional string field (`undefined` and `""` are falsy). -/
def jsTruthy : Option String → Bool
  | none => false
  | some s => s ≠ ""

/-- Source `isRefSelector`: `'ref' in selector`. -/
def isRefSelector : ElementSelector → Bool
  | .ref _ => true
  | _ => false

/-- Source `isRoleSelector`: `'role' in selector`. -/
def isRoleSelector : ElementSelector → Bool
  | .role _ _ => true
  | _ => false

/-- Source `isCSSSelector`: `'css' in selector`. -/
def isCSSSelector : ElementSelector → Bool
  | .css _ => true
  | _ => false

/-- Source `isTextSelector`: `'text' in selector && !('role' in selector)`. -/
def isTextSelector : ElementSelector → Bool
  | .text _ _ => true
  | _ => false

/-- Source `SelectorConfidence` levels (`HIGH = 0.9`); failure is reported as
confidence `0`.  `mkRat` keeps the values kernel-computable. -/
def SelectorConfidence.HIGH : ℚ := mkRat 9 10

/-- Medium confidence (`0.7`). -/
def SelectorConfidence.MEDIUM : ℚ := mkRat 7 10

/-- Low confidence (`0.5`, unused by the resolution paths below). -/
def SelectorConfidence.LOW : ℚ := mkRat 5 10

/-- Very low confidence (`0.3`, unused by the resolution paths below). -/
def SelectorConfidence.VERY_LOW : ℚ := mkRat 3 10

/-- Source `ResolutionStrategy`: which variant-resolution path produced a result. -/
inductive ResolutionStrategy where
  | REF
  | CSS_PARALLEL
  | ROLE_SEQUENTIAL
  | TEXT_FALLBACK
deriving DecidableEq, Repr

/-- An engine-side element as the resolver reads it: trimmed-on-demand text
content and the attribute map (association list in document order).
`textContent()`'s nullable result is folded into `""` exactly where the source
applies `?.trim() || ''`. -/
structure Elem where
  text : String
  attributes : List (String × String)
deriving DecidableEq, Repr

/-- The browsing-engine (Playwright page) model: the query primitives the
resolver invokes.  A locator is modelled by its list of matching elements;
`elemHasText` is the engine's `filter({ hasText })` predicate. -/
structure Page where
  ariaRefLookup : String → List Elem
  getByRole : String → List Elem
  getByText : String → List Elem
  queryCss : String → List Elem
  elemHasText : Elem → String → Bool

/-- Source `SelectorResolutionResult` (src/types/selectors.ts:125-140). -/
structure SelectorResolutionResult where
  locator : List Elem
  selector : ElementSelector
  confidence : ℚ
  strategy : ResolutionStrategy
  alternatives : Option (List ElementSelector) := none
  resolutionTimeMs : Nat := 0
  error : Option String := none
deriving DecidableEq, Repr

/-- Batch execution strategy (`'parallel' | 'sequential' | 'hybrid'`). -/
inductive ExecutionStrategy where
  | parallel
  | sequential
  | hybrid
deriving DecidableEq, Repr

/-- Source `BatchResolutionOptions`; absent fields are defaulted inside `resolveSelectors`. -/
structure BatchResolutionOptions where
  timeoutMs : Option Nat := none
  continueOnError : Option Bool := none
  executionStrategy : Option ExecutionStrategy := none

/-- Source `CategorizedSelectors` (src/types/selectors.ts:157-162). -/
structure CategorizedSelectors where
  refs : List ElementSelector
  css : List ElementSelector
  roles : List ElementSelector
  text : List ElementSelector
deriving DecidableEq, Repr

/-- Source `GENERIC_TAG_SELECTOR = /^[a-z]+$/` (selector-resolver.ts:20). -/
def GENERIC_TAG_SELECTOR (s : String) : Bool :=
  s ≠ "" && s.toList.all (fun c => 'a' ≤ c && c ≤ 'z')

/-- Source `_getStrategyForSelector` (selector-resolver.ts:829-842). -/
def getStrategyForSelector (sel : ElementSelector) : ResolutionStrategy :=
  if isRefSelector sel then .REF
  else if isCSSSelector sel then .CSS_PARALLEL
  else if isRoleSelector sel then .ROLE_SEQUENTIAL
  else .TEXT_FALLBACK

/-- Source `_createErrorResult` (selector-resolver.ts:809-824). -/
def createErrorResult (page : Page) (sel : ElementSelector) (errorMessage : String) :
    SelectorResolutionResult :=
  { locator := page.queryCss "not-found"
    selector := sel
    confidence := 0
    strategy := getStrategyForSelector sel
    resolutionTimeMs := 0
    error := some errorMessage }

/-- A candidate row assembled by `_getMatchCandidates`. -/
structure MatchCandidate where
  index : Nat
  text : String
  attributes : List (String × String)
deriving DecidableEq, Repr

/-- Source `_getMatchCandidates(locator, limit = 5)` (selector-resolver.ts:599-648):
reads text (trimmed, `null` folded to `""`) and the attribute map of the first
`min(count, limit)` matches.  The per-element `catch(() => null)` guards
engine read failures, which the element model does not produce. -/
def getMatchCandidates (loc : List Elem) (limit : Nat) : List MatchCandidate :=
  (loc.take limit).enum.map (fun p => ⟨p.1, p.2.text.trim, p.2.attributes⟩)

/-- JS `s.substring(0, n)` on the `String` side of the model (selector texts
and attribute values are BMP strings, where code-unit and character indices
coincide). -/
def jsSubstring (s : String) (n : Nat) : String :=
  String.mk (s.toList.take n)

/-- The `[k="v" ...]` attribute annotation: keep only the allow-listed
attributes and join `key="value"` pairs with spaces. -/
def attrSummary (allow : List String) (attributes : List (String × String)) : String :=
  String.intercalate " "
    ((attributes.filter (fun kv => allow.contains kv.1)).map
      (fun kv => kv.1 ++ "=\"" ++ kv.2 ++ "\""))

/-- One numbered candidate line
``  i) [attrs] text: "preview..."`` as built by the role/CSS resolvers. -/
def candidateLine (allow : List String) (i : Nat) (c : MatchCandidate) : String :=
  let attrs := attrSummary allow c.attributes
  "  " ++ toString (i + 1) ++ ") " ++ (if attrs ≠ "" then "[" ++ attrs ++ "] " else "") ++
    "text: \"" ++ jsSubstring c.text 50 ++ (if 50 < c.text.length then "..." else "") ++ "\""

/-- The joined candidate description block for the role/CSS resolvers. -/
def candidateDescriptions (allow : List String) (cands : List MatchCandidate) : String :=
  String.intercalate "\n" (cands.enum.map (fun p => candidateLine allow p.1 p.2))

/-- One numbered candidate line ``  i) <tag attrs> text: "preview..."`` as
built by the text resolver (`attributes.tagName || 'element'`). -/
def candidateLineText (allow : List String) (i : Nat) (c : MatchCandidate) : String :=
  let attrs := attrSummary allow c.attributes
  let tagName := match c.attributes.lookup "tagName" with
    | some v => if v = "" then "element" else v
    | none => "element"
  "  " ++ toString (i + 1) ++ ") <" ++ tagName ++ (if attrs ≠ "" then " " ++ attrs else "") ++
    "> text: \"" ++ jsSubstring c.text 50 ++ (if 50 < c.text.length then "..." else "") ++ "\""

/-- The joined candidate description block for the text resolver. -/
def candidateDescriptionsText (allow : List String) (cands : List MatchCandidate) : String :=
  String.intercalate "\n" (cands.enum.map (fun p => candidateLineText allow p.1 p.2))

/-- Source `_findRoleAlternatives` (selector-resolver.ts:653-696): static adjacency
table; keep an alternative role (with the original text filter) when it has at
least one match; cap at 3. -/
def findRoleAlternatives (page : Page) (role : String) (text : Option String) :
    List ElementSelector :=
  let commonRoleAlternatives : List (String × List String) :=
    [("button", ["link", "menuitem"]),
     ("link", ["button", "menuitem"]),
     ("textbox", ["searchbox", "combobox"]),
     ("checkbox", ["radio", "switch"])]
  let roleAlts := (commonRoleAlternatives.lookup role).getD []
  let valid := roleAlts.filterMap (fun altRole =>
    let loc := if jsTruthy text then
        (page.getByRole altRole).filter (fun e => page.elemHasText e (text.getD ""))
      else page.getByRole altRole
    if 0 < loc.length then some (ElementSelector.role altRole text) else none)
  valid.take 3

/-- Source `_findTextAlternatives` (selector-resolver.ts:701-722): probe the
half-length text prefix when it is longer than 3 characters; cap at 2. -/
def findTextAlternatives (page : Page) (text : String) : List ElementSelector :=
  let halfText := jsSubstring text (text.length / 2)
  let alternatives :=
    if 3 < halfText.length then
      if 0 < (page.getByText halfText).length then [ElementSelector.text halfText none] else []
    else []
  alternatives.take 2

/-- Source `_resolveRefSelector` (selector-resolver.ts:353-383). -/
def resolveRefSelector (page : Page) (ref : String) : SelectorResolutionResult :=
  let loc := page.ariaRefLookup ref
  if loc.length = 0 then
    { locator := page.queryCss "not-found"
      selector := .ref ref
      confidence := 0
      strategy := .REF
      error := some ("Ref " ++ ref ++ " not found in current page state") }
  else
    { locator := loc
      selector := .ref ref
      confidence := SelectorConfidence.HIGH
      strategy := .REF }

/-- Source `_resolveRoleSelector` (selector-resolver.ts:388-456). -/
def resolveRoleSelector (page : Page) (role : String) (text : Option String) :
    SelectorResolutionResult :=
  let loc₀ := page.getByRole role
  let loc := if jsTruthy text then loc₀.filter (fun e => page.elemHasText e (text.getD ""))
    else loc₀
  let confidence := if jsTruthy text then SelectorConfidence.HIGH else SelectorConfidence.MEDIUM
  let count := loc.length
  if count = 0 then
    { locator := page.queryCss "not-found"
      selector := .role role text
      confidence := 0
      strategy := .ROLE_SEQUENTIAL
      alternatives := some (findRoleAlternatives page role text)
      error := some ("No elements found with role \"" ++ role ++ "\"" ++
        (if jsTruthy text then " and text \"" ++ text.getD "" ++ "\"" else "")) }
  else if 1 < count && !(jsTruthy text) then
    let cands := getMatchCandidates loc 5
    { locator := page.queryCss "not-found"
      selector := .role role text
      confidence := 0
      strategy := .ROLE_SEQUENTIAL
      error := some ("Multiple elements (" ++ toString count ++ ") found with role \"" ++ role ++
        "\". Please be more specific:\n" ++
        candidateDescriptions ["id", "name", "data-testid", "aria-label"] cands ++
        "\nConsider adding text filter or using a more specific selector.") }
  else
    { locator := loc
      selector := .role role text
      confidence := confidence
      strategy := .ROLE_SEQUENTIAL }

/-- JS `s.startsWith(p)` (list-based so that the kernel can evaluate it). -/
def jsStartsWith (s p : String) : Bool :=
  p.toList.isPrefixOf s.toList

/-- Source `_resolveCSSSelector` (selector-resolver.ts:461-520). -/
def resolveCSSSelector (page : Page) (css : String) : SelectorResolutionResult :=
  let loc := page.queryCss css
  let count := loc.length
  if count = 0 then
    { locator := page.queryCss "not-found"
      selector := .css css
      confidence := 0
      strategy := .CSS_PARALLEL
      error := some ("No elements found matching CSS selector \"" ++ css ++ "\"") }
  else if jsStartsWith css "#" then
    { locator := loc
      selector := .css css
      confidence := SelectorConfidence.HIGH
      strategy := .CSS_PARALLEL }
  else if 1 < count && GENERIC_TAG_SELECTOR css then
    let cands := getMatchCandidates loc 5
    { locator := page.queryCss "not-found"
      selector := .css css
      confidence := 0
      strategy := .CSS_PARALLEL
      error := some ("Multiple elements (" ++ toString count ++ ") found with CSS selector \"" ++
        css ++ "\". Please be more specific:\n" ++
        candidateDescriptions ["id", "class", "name", "data-testid"] cands ++
        "\nConsider using a more specific selector like ID or adding :nth-child().") }
  else
    { locator := loc
      selector := .css css
      confidence := SelectorConfidence.MEDIUM
      strategy := .CSS_PARALLEL }

/-- Source `_resolveTextSelector` (selector-resolver.ts:525-594). -/
def resolveTextSelector (page : Page) (text : String) (tag : Option String) :
    SelectorResolutionResult :=
  let loc := if jsTruthy tag then
      (page.queryCss (tag.getD "")).filter (fun e => page.elemHasText e text)
    else page.getByText text
  let count := loc.length
  if count = 0 then
    { locator := page.queryCss "not-found"
      selector := .text text tag
      confidence := 0
      strategy := .TEXT_FALLBACK
      alternatives := some (findTextAlternatives page text)
      error := some ("No elements found with text \"" ++ text ++ "\"" ++
        (if jsTruthy tag then " in " ++ tag.getD "" ++ " tags" else "")) }
  else if jsTruthy tag then
    { locator := loc
      selector := .text text tag
      confidence := SelectorConfidence.HIGH
      strategy := .TEXT_FALLBACK }
  else if 3 < count then
    let cands := getMatchCandidates loc 5
    { locator := page.queryCss "not-found"
      selector := .text text tag
      confidence := 0
      strategy := .TEXT_FALLBACK
      error := some ("Multiple elements (" ++ toString count ++ ") found with text \"" ++ text ++
        "\". Please be more specific:\n" ++
        candidateDescriptionsText ["id", "class", "role", "data-testid"] cands ++
        "\nConsider using CSS selector or role with text filter.") }
  else
    { locator := loc
      selector := .text text tag
      confidence := SelectorConfidence.MEDIUM
      strategy := .TEXT_FALLBACK }

/-- Source `_resolveSingleSelectorInternal` (selector-resolver.ts:328-348); the
guard chain is exhaustive on the four selector shapes. -/
def resolveSingleSelectorInternal (page : Page) : ElementSelector → SelectorResolutionResult
  | .ref r => resolveRefSelector page r
  | .role role text => resolveRoleSelector page role text
  | .css css => resolveCSSSelector page css
  | .text text tag => resolveTextSelector page text tag

/-- The runtime outcome of one selector's underlying resolution promise:
it completes, the engine rejects somewhere inside (the resolvers rethrow
wrapped engine errors), or the `Promise.race` timeout fires first. -/
inductive Fate where
  | completes
  | raises (msg : String)
  | timesOut
deriving DecidableEq, Repr

/-- Source `_resolveSelectorWithTimeout` (selector-resolver.ts:298-323): races the
resolution against the timeout, and — crucially — catches every rejection
(timeout included) in its own `try/catch`, converting it to
`_createErrorResult`.  It therefore never rejects. -/
def resolveSelectorWithTimeout (page : Page) (fate : ElementSelector → Fate)
    (timeoutMs : Nat) (sel : ElementSelector) : SelectorResolutionResult :=
  match fate sel with
  | .completes => resolveSingleSelectorInternal page sel
  | .raises msg => createErrorResult page sel msg
  | .timesOut =>
    createErrorResult page sel
      ("Selector resolution timed out after " ++ toString timeoutMs ++ "ms")

/-- Source `_categorizeSelectors` (selector-resolver.ts:153-176): partition into the
four buckets, preserving relative order, guard chain ref / css / role / text. -/
def categorizeSelectors : List ElementSelector → CategorizedSelectors
  | [] => ⟨[], [], [], []⟩
  | sel :: rest =>
    let c := categorizeSelectors rest
    if isRefSelector sel then { c with refs := sel :: c.refs }
    else if isCSSSelector sel then { c with css := sel :: c.css }
    else if isRoleSelector sel then { c with roles := sel :: c.roles }
    else if isTextSelector sel then { c with text := sel :: c.text }
    else c

/-- Source `_resolveParallel` (selector-resolver.ts:181-205): resolve the
concatenation refs ++ css ++ roles ++ text; `Promise.all` preserves array
order.  The `continueOnError` rethrow is dead code because
`resolveSelectorWithTimeout` never rejects, so the parameter is unused. -/
def resolveParallel (page : Page) (fate : ElementSelector → Fate)
    (categorized : CategorizedSelectors) (timeoutMs : Nat) (_continueOnError : Bool) :
    List SelectorResolutionResult :=
  let allSelectors := categorized.refs ++ categorized.css ++ categorized.roles ++ categorized.text
  allSelectors.map (resolveSelectorWithTimeout page fate timeoutMs)

/-- Source `_resolveSequential` (selector-resolver.ts:210-238): same concatenation;
the `index * 10` ms staggered `setTimeout` affects scheduling only, the
`Promise.all` output order is still the array order.  The `continueOnError`
rethrow is likewise dead code. -/
def resolveSequential (page : Page) (fate : ElementSelector → Fate)
    (categorized : CategorizedSelectors) (timeoutMs : Nat) (_continueOnError : Bool) :
    List SelectorResolutionResult :=
  let allSelectors := categorized.refs ++ categorized.css ++ categorized.roles ++ categorized.text
  allSelectors.map (resolveSelectorWithTimeout page fate timeoutMs)

/-- Source `_resolveHybrid` (selector-resolver.ts:243-293): refs first (parallel),
then css ++ roles ++ text (staggered); results are pushed in that order. -/
def resolveHybrid (page : Page) (fate : ElementSelector → Fate)
    (categorized : CategorizedSelectors) (timeoutMs : Nat) (_continueOnError : Bool) :
    List SelectorResolutionResult :=
  let refResults := categorized.refs.map (resolveSelectorWithTimeout page fate timeoutMs)
  let otherSelectors := categorized.css ++ categorized.roles ++ categorized.text
  let otherResults := otherSelectors.map (resolveSelectorWithTimeout page fate timeoutMs)
  refResults ++ otherResults

/-- Source `resolveSelectors` (selector-resolver.ts:37-86).  `_validateSelectors`
(zod `elementSelectorSchema.parse`) cannot fail on the typed selector union,
so validation is the identity here. -/
def resolveSelectors (page : Page) (fate : ElementSelector → Fate)
    (selectors : List ElementSelector) (options : BatchResolutionOptions) :
    List SelectorResolutionResult :=
  let timeoutMs := options.timeoutMs.getD 3000
  let continueOnError := options.continueOnError.getD true
  let executionStrategy := options.executionStrategy.getD .hybrid
  let categorized := categorizeSelectors selectors
  match executionStrategy with
  | .parallel => resolveParallel page fate categorized timeoutMs continueOnError
  | .sequential => resolveSequential page fate categorized timeoutMs continueOnError
  | .hybrid => resolveHybrid page fate categorized timeoutMs continueOnError

/-- Source `ElementInspectionMetadata`, restricted to the fields the accept loop and
truncation logic read (`sizeBytes`) plus the identifying fields; bounding box,
styles and ARIA properties are engine reads that no claim concerns. -/
structure ElementInspectionMetadata where
  tagName : String
  attributes : List (String × String)
  textContent : String
  sizeBytes : Nat
deriving DecidableEq, Repr

/-- Source `ElementInspectionResult`.  The `children` array (depth recursion) is not
modelled: children are attached after `metadata.sizeBytes` is fixed and never
contribute to a node's own `html`, `sizeBytes`, or the batch total, which is
all the claims below are about. -/
structure ElementInspectionResult where
  html : List Char
  metadata : ElementInspectionMetadata
  matchedSelector : ElementSelector
  error : Option String := none
deriving DecidableEq, Repr

/-- Engine-side input to `_extractElementHTML` for one resolved selector:
whether the locator still matches (`count > 0`), the element's metadata reads,
the serialized content for the chosen format
(`outerHTML` after exclusion/attribute/whitespace processing, text content, or
the aria summary — all engine evaluations), and whether the extraction
promise rejects. -/
structure ElementContent where
  found : Bool
  tagName : String
  attributes : List (String × String)
  textContent : String
  serialized : List Char
  fails : Option String := none

/-- Source `_extractElementHTML` (html-inspector.ts:306-383), child recursion aside:
`none` models the `null` return for a zero-match locator; an engine rejection
is caught and produces the error element with `unknown` metadata; otherwise
the serialized content is truncated via `truncateHtml` exactly when it
exceeds a positive remaining budget, and `metadata.sizeBytes` is the UTF-8
size of the (possibly truncated) html. -/
def extractElementHTML (ec : ElementContent) (sel : ElementSelector)
    (remainingSizeBytes : Nat) : Option ElementInspectionResult :=
  match ec.fails with
  | some msg =>
    some { html := []
           metadata := { tagName := "unknown", attributes := [], textContent := "", sizeBytes := 0 }
           matchedSelector := sel
           error := some msg }
  | none =>
    if ec.found = false then none
    else
      let html := ec.serialized
      let sizeBytes := byteSize html
      if remainingSizeBytes < sizeBytes && 0 < remainingSizeBytes then
        let truncationResult := truncateHtml html remainingSizeBytes
        some { html := truncationResult.1
               metadata := { tagName := ec.tagName, attributes := ec.attributes,
                             textContent := ec.textContent,
                             sizeBytes := byteSize truncationResult.1 }
               matchedSelector := sel }
      else
        some { html := html
               metadata := { tagName := ec.tagName, attributes := ec.attributes,
                             textContent := ec.textContent, sizeBytes := sizeBytes }
               matchedSelector := sel }

/-- The `{element?, error?}` record `_processSelectorResult` returns. -/
inductive ProcessOutcome where
  | failed
  | noElement
  | ok (e : ElementInspectionResult)
deriving DecidableEq, Repr

/-- Source `_processSelectorResult` (html-inspector.ts:51-75): resolution errors and
zero confidence short-circuit to `{error:true}`; `_extractElementHTML` never
rejects (its body is wrapped in its own `try/catch`), so the outer catch is
unreachable. -/
def processSelectorResult (selectorResult : SelectorResolutionResult)
    (ec : ElementContent) (sel : ElementSelector) (remainingSize : Nat) : ProcessOutcome :=
  if selectorResult.error.isSome || selectorResult.confidence == 0 then .failed
  else
    match extractElementHTML ec sel remainingSize with
    | none => .noElement
    | some e => .ok e

/-- Source `_calculateElementDepth` (html-inspector.ts:636-645); with children not
modelled every accepted node is a leaf of depth 1. -/
def calculateElementDepth (_e : ElementInspectionResult) : Nat := 1

/-- Source `html.includes('<!-- TRUNCATED -->')`: substring containment. -/
def includesMarker (html : List Char) : Bool :=
  decide (truncationMarker <:+: html)

/-- Accumulated state/result of `_processAllSelectors`' sequential accept loop. -/
structure ProcessAllResult where
  elements : List (Nat × ElementInspectionResult)
  totalSizeBytes : Nat
  truncated : Bool
  elementsFound : Nat
  selectorsNotFound : Nat
  totalDepth : Nat
deriving DecidableEq, Repr

/-- The sequential accept loop of `_processAllSelectors`
(html-inspector.ts:116-139): errors count as not-found; an element is accepted
when it fits `maxSize` less the running total (flagging `truncated` if its
html carries the marker); the first element that does not fit sets
`truncated` and breaks. -/
def acceptLoop (maxSize : Nat) : List (Nat × ProcessOutcome) → ProcessAllResult →
    ProcessAllResult
  | [], st => st
  | (i, o) :: rest, st =>
    match o with
    | .failed => acceptLoop maxSize rest { st with selectorsNotFound := st.selectorsNotFound + 1 }
    | .noElement => acceptLoop maxSize rest st
    | .ok e =>
      if st.totalSizeBytes + e.metadata.sizeBytes ≤ maxSize then
        acceptLoop maxSize rest
          { st with
            elements := st.elements ++ [(i, e)]
            totalSizeBytes := st.totalSizeBytes + e.metadata.sizeBytes
            elementsFound := st.elementsFound + 1
            totalDepth := st.totalDepth + calculateElementDepth e
            truncated := st.truncated || includesMarker e.html }
      else
        { st with truncated := true }

/-- Initial accumulator of the accept loop. -/
def initProcessState : ProcessAllResult :=
  { elements := [], totalSizeBytes := 0, truncated := false,
    elementsFound := 0, selectorsNotFound := 0, totalDepth := 0 }

/-- Source `_processAllSelectors` (html-inspector.ts:80-151): every selector is
pre-processed in parallel against the full `maxSize` budget
(`options.maxSize ?? 50_000`), pairing result `i` with `selectors[i]`; the
outcomes are then folded sequentially by the accept loop. -/
def processAllSelectors (selectorResults : List SelectorResolutionResult)
    (selectors : List ElementSelector) (contentOf : Nat → ElementContent)
    (maxSizeOpt : Option Nat) : ProcessAllResult :=
  let maxSize := maxSizeOpt.getD 50000
  let outcomes := (selectorResults.zip selectors).enum.map
    (fun p => (p.1, processSelectorResult p.2.1 (contentOf p.1) p.2.2 maxSize))
  acceptLoop maxSize outcomes initProcessState

/-- The caller-facing options record of `extractHTML`, before validation.
Fields not listed (format, flags, excludeSelector) only shape the
engine-side serialization already abstracted into `ElementContent`. -/
structure HTMLInspectionOptionsRaw where
  selectors : List ElementSelector
  depth : Option Nat := none
  maxSize : Option Nat := none

/-- Options after zod validation/defaulting. -/
structure HTMLInspectionOptionsV where
  selectors : List ElementSelector
  depth : Nat
  maxSize : Nat
deriving DecidableEq, Repr

/-- Source `validateHTMLInspectionOptions` = `htmlInspectionOptionsSchema.parse`
(src/types/html-inspection.ts:39-82): at least one selector, `depth` in 1..10
(default 2), `maxSize` in 1024..500000 (default 50000); out-of-range values
throw a zod error. -/
def validateHTMLInspectionOptions (o : HTMLInspectionOptionsRaw) :
    Except String HTMLInspectionOptionsV :=
  if o.selectors.length < 1 then
    .error "Array must contain at least 1 element(s)"
  else
    match o.depth with
    | some d =>
      if d < 1 then .error "Number must be greater than or equal to 1"
      else if 10 < d then .error "Number must be less than or equal to 10"
      else
        match o.maxSize with
        | some m =>
          if m < 1024 then .error "Number must be greater than or equal to 1024"
          else if 500000 < m then .error "Number must be less than or equal to 500000"
          else .ok ⟨o.selectors, d, m⟩
        | none => .ok ⟨o.selectors, d, 50000⟩
    | none =>
      match o.maxSize with
      | some m =>
        if m < 1024 then .error "Number must be greater than or equal to 1024"
        else if 500000 < m then .error "Number must be less than or equal to 500000"
        else .ok ⟨o.selectors, 2, m⟩
      | none => .ok ⟨o.selectors, 2, 50000⟩

/-- Timing block; wall-clock durations are not modelled and stay 0. -/
structure InspectionTiming where
  totalMs : Nat
  selectorResolutionMs : Nat
  extractionMs : Nat
deriving DecidableEq, Repr

/-- Statistics block of `HTMLInspectionResult`. -/
structure InspectionStats where
  elementsFound : Nat
  selectorsNotFound : Nat
  averageDepth : ℚ
deriving DecidableEq, Repr

/-- Source `HTMLInspectionResult` (src/types/html-inspection.ts:130-157); the
`elements` record keyed by selector index is an association list. -/
structure HTMLInspectionResult where
  elements : List (Nat × ElementInspectionResult)
  totalSizeBytes : Nat
  truncated : Bool
  suggestions : Option (List String) := none
  timing : InspectionTiming
  stats : InspectionStats
deriving DecidableEq, Repr

/-- Source `generateHTMLInspectionSuggestions` (src/types/html-inspection.ts:282-312). -/
def generateHTMLInspectionSuggestions (result : HTMLInspectionResult) : List String :=
  (if result.truncated then
    ["Content was truncated. Consider reducing depth or using more specific selectors."]
   else []) ++
  (if 0 < result.stats.selectorsNotFound then
    ["Some selectors did not match elements. Try using more specific or alternative selectors."]
   else []) ++
  (if 5000 < result.timing.totalMs then
    ["Inspection took longer than expected. Consider reducing scope or depth."]
   else []) ++
  (if 5 < result.stats.averageDepth then
    ["Deep element extraction detected. Consider limiting depth for better performance."]
   else [])

/-- Environment of one `extractHTML` call: the page and fate oracle consumed
by the selector resolver, the per-index engine content for extraction, and
`runFailure`, an engine rejection escaping inside the `try` block (if any). -/
structure ExtractEnv where
  page : Page
  fate : ElementSelector → Fate
  contentOf : Nat → ElementContent
  runFailure : Option String := none

/-- Source `extractHTML` (html-inspector.ts:156-251).  Option validation runs
*before* the `try` block, so a zod failure propagates to the caller
(`Except.error`); everything after it is inside the `try`, whose `catch`
returns the fallback result built from the *raw* `options.selectors.length`.
The defaults merge (`{...this.defaultOptions, ...validatedOptions}`) is the
identity because zod already filled every defaulted field. -/
def extractHTML (env : ExtractEnv) (options : HTMLInspectionOptionsRaw) :
    Except String HTMLInspectionResult :=
  match validateHTMLInspectionOptions options with
  | .error e => .error e
  | .ok mergedOptions =>
    match env.runFailure with
    | some errorMessage =>
      .ok { elements := []
            totalSizeBytes := 0
            truncated := false
            suggestions := some ["Extraction failed: " ++ errorMessage]
            timing := ⟨0, 0, 0⟩
            stats := { elementsFound := 0
                       selectorsNotFound := options.selectors.length
                       averageDepth := 0 } }
    | none =>
      let selectorResults := resolveSelectors env.page env.fate mergedOptions.selectors
        { continueOnError := some true }
      let pa := processAllSelectors selectorResults mergedOptions.selectors env.contentOf
        (some mergedOptions.maxSize)
      let result : HTMLInspectionResult :=
        { elements := pa.elements
          totalSizeBytes := pa.totalSizeBytes
          truncated := pa.truncated
          timing := ⟨0, 0, 0⟩
          stats := { elementsFound := pa.elementsFound
                     selectorsNotFound := pa.selectorsNotFound
                     averageDepth := if 0 < pa.elementsFound then
                         (pa.totalDepth : ℚ) / (pa.elementsFound : ℚ)
                       else 0 } }
      let suggestions := generateHTMLInspectionSuggestions result ++
        (if 5000 < result.timing.totalMs then
          ["Extraction took longer than expected. Consider reducing scope or depth."]
         else []) ++
        (if 30000 < result.totalSizeBytes then
          ["Large content detected. Consider reducing depth or using more specific selectors."]
         else [])
      .ok { result with suggestions := some suggestions }

/-- Pre-truncation serialized size of one selector row: the UTF-8 size of the
serialized content when the selector resolved and the engine extraction
produced content, `0` otherwise (no content is serialized for failed or
unmatched selectors). -/
def rowPreSize (sr : SelectorResolutionResult) (ec : ElementContent) : Nat :=
  if sr.error.isSome || sr.confidence == 0 then 0
  else match ec.fails with
    | some _ => 0
    | none => if ec.found then byteSize ec.serialized else 0

/-- Total serialized content size before truncation, over the same
result/selector pairing `_processAllSelectors` iterates. -/
def preTruncationTotal (selectorResults : List SelectorResolutionResult)
    (selectors : List ElementSelector) (contentOf : Nat → ElementContent) : Nat :=
  (((selectorResults.zip selectors).enum).map (fun p => rowPreSize p.2.1 (contentOf p.1))).sum

/-- The match count each variant resolver computes for a selector: the length
of the locator it counts (`locator.count()` in the source), including the
truthy text/tag filters. -/
def selectorMatchCount (page : Page) : ElementSelector → Nat
  | .ref r => (page.ariaRefLookup r).length
  | .role role text =>
    (if jsTruthy text then
      (page.getByRole role).filter (fun e => page.elemHasText e (text.getD ""))
     else page.getByRole role).length
  | .css css => (page.queryCss css).length
  | .text text tag =>
    (if jsTruthy tag then
      (page.queryCss (tag.getD "")).filter (fun e => page.elemHasText e text)
     else page.getByText text).length

/-- Sum of the (post per-element truncation) sizes of the `ok` outcomes. -/
def sumOkSizes (outcomes : List (Nat × ProcessOutcome)) : Nat :=
  (outcomes.map (fun p => match p.2 with
    | .ok e => e.metadata.sizeBytes
    | _ => 0)).sum

/-- Whether the accept loop, run over `outcomes` from a given running total,
reaches its `break` (an `ok` element that does not fit). -/
def loopBreaks (maxSize : Nat) : List (Nat × ProcessOutcome) → Nat → Bool
  | [], _ => false
  | (_, o) :: rest, running =>
    match o with
    | .ok e =>
      if running + e.metadata.sizeBytes ≤ maxSize then
        loopBreaks maxSize rest (running + e.metadata.sizeBytes)
      else true
    | _ => loopBreaks maxSize rest running

/-- The byte-budget cut C5 claims: the longest prefix whose UTF-8 size is at
most `k` bytes (what "cut the string at `budget - 100` bytes" prescribes). -/
def takeBytes : Nat → List Char → List Char
  | _, [] => []
  | k, c :: cs => if utf8Len c ≤ k then c :: takeBytes (k - utf8Len c) cs else []

/-- A page on which every query is empty. -/
def page0 : Page :=
  { ariaRefLookup := fun _ => []
    getByRole := fun _ => []
    getByText := fun _ => []
    queryCss := fun _ => []
    elemHasText := fun _ _ => false }

/-- Every resolution completes. -/
def fate0 : ElementSelector → Fate := fun _ => .completes

/-- The resolution of `{css: "#a"}` hits the timeout; everything else completes. -/
def fateC2 : ElementSelector → Fate :=
  fun s => if s = .css "#a" then .timesOut else .completes

/-- The error result `resolveSelectors` returns for the timed-out `{css:"#a"}`. -/
def rC2 : SelectorResolutionResult :=
  { locator := []
    selector := .css "#a"
    confidence := 0
    strategy := .CSS_PARALLEL
    error := some "Selector resolution timed out after 3000ms" }

/-- The not-found error result for `{ref: "r"}` on the empty page. -/
def rC9 : SelectorResolutionResult :=
  { locator := []
    selector := .ref "r"
    confidence := 0
    strategy := .REF
    error := some "Ref r not found in current page state" }

/-- Sample elements for the witness page. -/
def wE1 : Elem := ⟨"OK", [("id", "ok")]⟩

/-- Second sample element. -/
def wE2 : Elem := ⟨"Cancel", [("id", "cancel"), ("data-x", "1")]⟩

/-- Third sample element. -/
def wE3 : Elem := ⟨"Submit now", [("class", "btn")]⟩

/-- Fourth sample element. -/
def wE4 : Elem := ⟨"Submit later", []⟩

/-- A small concrete page: two buttons, four text matches for "Submit", a
unique `#app`, two generic `p` elements, one `div`; `hasText` is substring
containment. -/
def wPage : Page :=
  { ariaRefLookup := fun r => if r = "r1" then [wE1] else []
    getByRole := fun role => if role = "button" then [wE1, wE2] else []
    getByText := fun t => if t = "Submit" then [wE1, wE2, wE3, wE4] else []
    queryCss := fun s =>
      if s = "#app" then [wE1]
      else if s = "p" then [wE1, wE2]
      else if s = "div" then [wE3]
      else []
    elemHasText := fun e t => decide (t.toList <:+: e.text.toList) }

/-- A 600-byte extracted element (for the accept-loop witnesses). -/
def eA : ElementInspectionResult :=
  { html := List.replicate 600 'a'
    metadata := { tagName := "div", attributes := [], textContent := "", sizeBytes := 600 }
    matchedSelector := .css "div" }

/-- A second 600-byte extracted element. -/
def eB : ElementInspectionResult :=
  { html := List.replicate 600 'b'
    metadata := { tagName := "p", attributes := [], textContent := "", sizeBytes := 600 }
    matchedSelector := .css "p" }

/-- The outcome prefix accepted before the non-fitting element. -/
def preC4 : List (Nat × ProcessOutcome) := [(0, .ok eA)]

/-- A successful resolution result for `{css:"div"}` (as the pipeline produces). -/
def srA : SelectorResolutionResult :=
  { locator := [wE3]
    selector := .css "div"
    confidence := SelectorConfidence.MEDIUM
    strategy := .CSS_PARALLEL }

/-- A successful resolution result for `{css:"p"}`. -/
def srB : SelectorResolutionResult :=
  { locator := [wE1, wE2]
    selector := .css "p"
    confidence := SelectorConfidence.MEDIUM
    strategy := .CSS_PARALLEL }

/-- The High-confidence resolution of `{css:"#a"}` on `pageC3`. -/
def srBig : SelectorResolutionResult :=
  { locator := [wE1]
    selector := .css "#a"
    confidence := SelectorConfidence.HIGH
    strategy := .CSS_PARALLEL }

/-- Engine contents for the C4 counterexample: two 600-byte serializations. -/
def contentC4 : Nat → ElementContent :=
  fun i =>
    if i = 0 then
      { found := true, tagName := "div", attributes := [], textContent := ""
        serialized := List.replicate 600 'a' }
    else
      { found := true, tagName := "p", attributes := [], textContent := ""
        serialized := List.replicate 600 'b' }

/-- The C4 counterexample run: both nodes fit the full budget individually
(no per-element truncation), but together they exceed `maxSize = 1024`. -/
def runC4 : ProcessAllResult :=
  processAllSelectors [srA, srB] [.css "div", .css "p"] contentC4 (some 1024)

/-- Four hundred three-byte characters (1200 UTF-8 bytes, 400 UTF-16 units). -/
def chA : List Char := List.replicate 400 'あ'

/-- Page for the C3 witness: `#a` resolves to one element. -/
def pageC3 : Page :=
  { ariaRefLookup := fun _ => []
    getByRole := fun _ => []
    getByText := fun _ => []
    queryCss := fun s => if s = "#a" then [wE1] else []
    elemHasText := fun _ _ => false }

/-- Serialized content of 1100 bytes. -/
def contentBig : ElementContent :=
  { found := true, tagName := "div", attributes := [], textContent := ""
    serialized := List.replicate 1100 'a' }

/-- Extraction environment for the C3 witness. -/
def envC3 : ExtractEnv :=
  { page := pageC3, fate := fun _ => .completes, contentOf := fun _ => contentBig }

/-- Options for the C3 witness: one selector, `maxSize = 1024`. -/
def optC3 : HTMLInspectionOptionsRaw :=
  { selectors := [.css "#a"], maxSize := some 1024 }

/-- Source `optC3` after validation. -/
def vC3 : HTMLInspectionOptionsV := ⟨[.css "#a"], 2, 1024⟩

/-- Environment whose `try` block fails (engine rejection inside extraction). -/
def envC10 : ExtractEnv :=
  { page := page0, fate := fun _ => .completes
    contentOf := fun _ =>
      { found := false, tagName := "", attributes := [], textContent := "", serialized := [] }
    runFailure := some "engine crashed" }

/-- Valid one-selector options for the C10 witness. -/
def optC10 : HTMLInspectionOptionsRaw := { selectors := [.css "#a"] }

/-! ## Theorems -/

theorem utf16Len_pos (c : Char) : 1 ≤ utf16Len c := by
  unfold utf16Len; split <;> omega

theorem utf8Len_pos (c : Char) : 1 ≤ utf8Len c := by
  unfold utf8Len; repeat' split
  all_goals omega

theorem u16Length_append (a b : List Char) :
    u16Length (a ++ b) = u16Length a + u16Length b := by
  simp [u16Length]

theorem takeUnits_nil (k : Nat) : takeUnits k [] = [] := by
  cases k <;> rfl

/-- Cutting at the exact code-unit boundary of `a` inside `a ++ x :: b` returns `a`. -/
theorem takeUnits_boundary (a : List Char) (x : Char) (b : List Char) :
    takeUnits (u16Length a) (a ++ x :: b) = a := by
  induction a with
  | nil =>
    show takeUnits 0 (x :: b) = []
    unfold takeUnits
    have := utf16Len_pos x
    simp only [if_neg (by omega : ¬ utf16Len x ≤ 0)]
  | cons c a ih =>
    show takeUnits (u16Length (c :: a)) (c :: (a ++ x :: b)) = c :: a
    have hu : u16Length (c :: a) = utf16Len c + u16Length a := by
      simp [u16Length]
    unfold takeUnits
    rw [hu, if_pos (by omega)]
    simpa using ih

theorem lastIndexOfUnit_notMem (c : Char) (l : List Char) (h : c ∉ l) :
    lastIndexOfUnit c l = -1 := by
  induction l with
  | nil => rfl
  | cons x xs ih =>
    have hx : ¬ x = c := fun hxc => h (hxc ▸ List.mem_cons_self x xs)
    have hxs : c ∉ xs := fun hm => h (List.mem_cons_of_mem x hm)
    unfold lastIndexOfUnit
    rw [ih hxs]
    simp [hx]

theorem lastIndexOfUnit_nonneg_iff (c : Char) (l : List Char) :
    0 ≤ lastIndexOfUnit c l ↔ c ∈ l := by
  induction l with
  | nil => simp [lastIndexOfUnit]
  | cons x xs ih =>
    unfold lastIndexOfUnit
    by_cases hr : 0 ≤ lastIndexOfUnit c xs
    · have := utf16Len_pos x
      simp only [if_pos hr]
      constructor
      · intro _; exact List.mem_cons_of_mem x (ih.mp hr)
      · intro _; omega
    · simp only [if_neg hr]
      by_cases hx : x = c
      · subst hx; simp
      · simp only [if_neg hx]
        constructor
        · intro h; omega
        · intro h
          rcases List.mem_cons.mp h with h | h
          · exact absurd h.symm hx
          · exact absurd (ih.mpr h) hr

/-- The last occurrence of `c` in `a ++ c :: b` with `c ∉ b` sits at unit index `u16Length a`. -/
theorem lastIndexOfUnit_append (c : Char) (a b : List Char) (hb : c ∉ b) :
    lastIndexOfUnit c (a ++ c :: b) = (u16Length a : Int) := by
  induction a with
  | nil =>
    show lastIndexOfUnit c (c :: b) = ((u16Length [] : Nat) : Int)
    unfold lastIndexOfUnit
    rw [lastIndexOfUnit_notMem c b hb]
    simp [u16Length]
  | cons x a ih =>
    show lastIndexOfUnit c (x :: (a ++ c :: b)) = _
    unfold lastIndexOfUnit
    rw [ih]
    have : (0 : Int) ≤ (u16Length a : Int) := by positivity
    rw [if_pos this]
    have : u16Length (x :: a) = utf16Len x + u16Length a := by simp [u16Length]
    rw [this]
    push_cast
    ring

/-- If `c` does not occur in `v`, its last index in `u ++ v` is its last index in `u`. -/
theorem lastIndexOfUnit_append_right (c : Char) (u v : List Char) (hv : c ∉ v) :
    lastIndexOfUnit c (u ++ v) = lastIndexOfUnit c u := by
  induction u with
  | nil => simpa using lastIndexOfUnit_notMem c v hv
  | cons x u ih =>
    show lastIndexOfUnit c (x :: (u ++ v)) = lastIndexOfUnit c (x :: u)
    unfold lastIndexOfUnit
    rw [ih]

/-- A last index is always strictly below the total unit length. -/
theorem lastIndexOfUnit_lt (c : Char) (l : List Char) :
    lastIndexOfUnit c l < (u16Length l : Int) := by
  induction l with
  | nil => simp [lastIndexOfUnit, u16Length]
  | cons x xs ih =>
    unfold lastIndexOfUnit
    have hx := utf16Len_pos x
    have hlen : u16Length (x :: xs) = utf16Len x + u16Length xs := by simp [u16Length]
    by_cases hr : 0 ≤ lastIndexOfUnit c xs
    · rw [if_pos hr, hlen]
      push_cast
      omega
    · rw [if_neg hr, hlen]
      by_cases hxc : x = c
      · rw [if_pos hxc]; push_cast; omega
      · rw [if_neg hxc]; push_cast; omega

theorem cutInsideTag_of_notMem (l : List Char) (h : '<' ∉ l) :
    cutInsideTag l = none := by
  induction l with
  | nil => rfl
  | cons x xs ih =>
    have hx : ¬ x = '<' := fun hxc => h (hxc ▸ List.mem_cons_self x xs)
    have hxs : '<' ∉ xs := fun hm => h (List.mem_cons_of_mem x hm)
    unfold cutInsideTag
    by_cases hgt : x = '>'
    · simp [hx, hgt]
    · simp [hx, hgt, ih hxs]

theorem cutInsideTag_append_gt (u rest : List Char)
    (hlt : '<' ∉ u) (hgt : '>' ∈ u) :
    cutInsideTag (u ++ rest) = none := by
  induction u with
  | nil => cases hgt
  | cons x xs ih =>
    have hx : ¬ x = '<' := fun hxc => hlt (hxc ▸ List.mem_cons_self x xs)
    have hxs : '<' ∉ xs := fun hm => hlt (List.mem_cons_of_mem x hm)
    unfold cutInsideTag
    by_cases hxgt : x = '>'
    · simp [hx, hxgt]
    · have : '>' ∈ xs := by
        rcases List.mem_cons.mp hgt with h | h
        · exact absurd h.symm hxgt
        · exact h
      simp [hx, hxgt, ih hxs this]

theorem cutInsideTag_append_lt (u v : List Char)
    (hlt : '<' ∉ u) (hgt : '>' ∉ u) :
    cutInsideTag (u ++ '<' :: v) = some v := by
  induction u with
  | nil => rfl
  | cons x xs ih =>
    have hx : ¬ x = '<' := fun hxc => hlt (hxc ▸ List.mem_cons_self x xs)
    have hxg : ¬ x = '>' := fun hxc => hgt (hxc ▸ List.mem_cons_self x xs)
    have hxs : '<' ∉ xs := fun hm => hlt (List.mem_cons_of_mem x hm)
    have hxsg : '>' ∉ xs := fun hm => hgt (List.mem_cons_of_mem x hm)
    unfold cutInsideTag
    simp [hx, hxg, ih hxs hxsg]

/-- Split a list at the last occurrence of an element. -/
theorem exists_split_last {α : Type} [DecidableEq α] (c : α) (l : List α) (h : c ∈ l) :
    ∃ a b, l = a ++ c :: b ∧ c ∉ b := by
  induction l with
  | nil => cases h
  | cons x xs ih =>
    by_cases hm : c ∈ xs
    · obtain ⟨a, b, rfl, hb⟩ := ih hm
      exact ⟨x :: a, b, rfl, hb⟩
    · rcases List.mem_cons.mp h with h | h
      · exact ⟨[], xs, by simp [h], hm⟩
      · exact absurd h hm

/-- The source's back-up step (`lastIndexOf`-based) agrees with the reverse-scan
formulation, on any string. -/
theorem safeCut_eq (t : List Char) :
    (if lastIndexOfUnit '>' t < lastIndexOfUnit '<' t
      then takeUnits (lastIndexOfUnit '<' t).toNat t
      else t) =
    (match cutInsideTag t.reverse with
      | some r => r.reverse
      | none => t) := by
  by_cases hmem : '<' ∈ t
  · obtain ⟨a, b, rfl, hb⟩ := exists_split_last '<' t hmem
    rw [lastIndexOfUnit_append '<' a b hb]
    by_cases hgb : '>' ∈ b
    · -- a '>' follows the last '<': no back-up, reverse scan hits '>' first
      obtain ⟨b1, b2, rfl, hb2⟩ := exists_split_last '>' b hgb
      have hglast : lastIndexOfUnit '>' (a ++ '<' :: (b1 ++ '>' :: b2)) =
          (u16Length (a ++ '<' :: b1) : Int) := by
        have : a ++ '<' :: (b1 ++ '>' :: b2) = (a ++ '<' :: b1) ++ '>' :: b2 := by simp
        rw [this]
        exact lastIndexOfUnit_append '>' (a ++ '<' :: b1) b2 hb2
      rw [hglast]
      have hlen : (u16Length a : Int) < (u16Length (a ++ '<' :: b1) : Int) := by
        rw [u16Length_append]
        have h1 : u16Length ('<' :: b1) = utf16Len '<' + u16Length b1 := by
          simp [u16Length]
        have h2 : 1 ≤ utf16Len '<' := utf16Len_pos '<'
        push_cast
        omega
      rw [if_neg (by omega)]
      have hrev : (a ++ '<' :: (b1 ++ '>' :: b2)).reverse =
          (b2.reverse ++ '>' :: b1.reverse) ++ '<' :: a.reverse := by
        simp
      rw [hrev]
      have hscan : cutInsideTag ((b2.reverse ++ '>' :: b1.reverse) ++ '<' :: a.reverse) = none := by
        apply cutInsideTag_append_gt
        · intro hc
          rcases List.mem_append.mp hc with hc | hc
          · exact hb (by
              have := List.mem_reverse.mp hc
              exact List.mem_append.mpr (Or.inr (List.mem_cons_of_mem '>' this)))
          · rcases List.mem_cons.mp hc with hc | hc
            · exact absurd hc.symm (by decide)
            · exact hb (by
                have := List.mem_reverse.mp hc
                exact List.mem_append.mpr (Or.inl this))
        · exact List.mem_append.mpr (Or.inr (List.mem_cons_self _ _))
      rw [hscan]
    · -- no '>' after the last '<': back up to that '<'
      have hglast : lastIndexOfUnit '>' (a ++ '<' :: b) = lastIndexOfUnit '>' a := by
        apply lastIndexOfUnit_append_right
        intro hc
        rcases List.mem_cons.mp hc with hc | hc
        · exact absurd hc.symm (by decide)
        · exact hgb hc
      rw [hglast]
      have hlt : lastIndexOfUnit '>' a < (u16Length a : Int) := lastIndexOfUnit_lt '>' a
      rw [if_pos (by omega)]
      have htoNat : ((u16Length a : Int)).toNat = u16Length a := Int.toNat_ofNat _
      rw [htoNat, takeUnits_boundary]
      have hrev : (a ++ '<' :: b).reverse = b.reverse ++ '<' :: a.reverse := by simp
      rw [hrev]
      have hscan : cutInsideTag (b.reverse ++ '<' :: a.reverse) = some a.reverse := by
        apply cutInsideTag_append_lt
        · intro hc; exact hb (List.mem_reverse.mp hc)
        · intro hc; exact hgb (List.mem_reverse.mp hc)
      rw [hscan]
      simp
  · -- no '<' at all: no back-up, reverse scan finds nothing
    rw [lastIndexOfUnit_notMem '<' t hmem]
    have : lastIndexOfUnit '>' t ≥ -1 := by
      by_cases h : '>' ∈ t
      · have := (lastIndexOfUnit_nonneg_iff '>' t).mpr h; omega
      · rw [lastIndexOfUnit_notMem '>' t h]
    rw [if_neg (by omega)]
    rw [cutInsideTag_of_notMem _ (fun hc => hmem (List.mem_reverse.mp hc))]

theorem selector_of_resolveRefSelector (page : Page) (r : String) :
    (resolveRefSelector page r).selector = .ref r := by
  unfold resolveRefSelector
  dsimp only
  repeat' split
  all_goals rfl

theorem selector_of_resolveRoleSelector (page : Page) (role : String) (text : Option String) :
    (resolveRoleSelector page role text).selector = .role role text := by
  unfold resolveRoleSelector
  dsimp only
  repeat' split
  all_goals rfl

theorem selector_of_resolveCSSSelector (page : Page) (css : String) :
    (resolveCSSSelector page css).selector = .css css := by
  unfold resolveCSSSelector
  dsimp only
  repeat' split
  all_goals rfl

theorem selector_of_resolveTextSelector (page : Page) (text : String) (tag : Option String) :
    (resolveTextSelector page text tag).selector = .text text tag := by
  unfold resolveTextSelector
  dsimp only
  repeat' split
  all_goals rfl

/-- Every path through the timeout wrapper reports the selector it was given. -/
theorem selector_of_rswt (page : Page) (fate : ElementSelector → Fate) (tm : Nat)
    (sel : ElementSelector) :
    (resolveSelectorWithTimeout page fate tm sel).selector = sel := by
  unfold resolveSelectorWithTimeout
  cases fate sel with
  | completes =>
    cases sel with
    | ref r => exact selector_of_resolveRefSelector page r
    | role role text => exact selector_of_resolveRoleSelector page role text
    | css css => exact selector_of_resolveCSSSelector page css
    | text text tag => exact selector_of_resolveTextSelector page text tag
  | raises msg => rfl
  | timesOut => rfl

/-- Source `_categorizeSelectors` buckets are the guard-filtered sublists. -/
theorem categorizeSelectors_eq (sels : List ElementSelector) :
    categorizeSelectors sels =
      ⟨sels.filter isRefSelector, sels.filter isCSSSelector,
       sels.filter isRoleSelector, sels.filter isTextSelector⟩ := by
  induction sels with
  | nil => rfl
  | cons sel rest ih =>
    cases sel <;>
      simp [categorizeSelectors, ih, isRefSelector, isCSSSelector, isRoleSelector,
        isTextSelector, List.filter]

/-- The four guard-filters partition the list (each selector satisfies exactly
one guard). -/
theorem filter_partition_length (sels : List ElementSelector) :
    (sels.filter isRefSelector).length + (sels.filter isCSSSelector).length +
      (sels.filter isRoleSelector).length + (sels.filter isTextSelector).length =
      sels.length := by
  induction sels with
  | nil => rfl
  | cons sel rest ih =>
    cases sel <;>
      simp [isRefSelector, isCSSSelector, isRoleSelector, isTextSelector, List.filter] <;>
      omega

/-- All three execution strategies return the resolutions of
refs ++ css ++ roles ++ text, in that order. -/
theorem resolveSelectors_eq_map (page : Page) (fate : ElementSelector → Fate)
    (sels : List ElementSelector) (opts : BatchResolutionOptions) :
    resolveSelectors page fate sels opts =
      (sels.filter isRefSelector ++ sels.filter isCSSSelector ++
        sels.filter isRoleSelector ++ sels.filter isTextSelector).map
        (resolveSelectorWithTimeout page fate (opts.timeoutMs.getD 3000)) := by
  unfold resolveSelectors
  rw [categorizeSelectors_eq]
  cases opts.executionStrategy.getD .hybrid <;>
    simp [resolveParallel, resolveSequential, resolveHybrid]

/-- C1 (corrected): `resolveSelectors` does return one result per input
selector under every strategy, but the i-th entry corresponds to the i-th
selector of the *categorized* order (refs, then CSS, then role, then text,
preserving relative input order inside each bucket), not of the input order. -/
theorem C1_amended (page : Page) (fate : ElementSelector → Fate)
    (sels : List ElementSelector) (opts : BatchResolutionOptions) :
    (resolveSelectors page fate sels opts).length = sels.length ∧
    (resolveSelectors page fate sels opts).map (fun r => r.selector) =
      sels.filter isRefSelector ++ sels.filter isCSSSelector ++
        sels.filter isRoleSelector ++ sels.filter isTextSelector := by
  rw [resolveSelectors_eq_map]
  constructor
  · rw [List.length_map]
    simp only [List.length_append]
    have := filter_partition_length sels
    omega
  · rw [List.map_map]
    have : (fun r : SelectorResolutionResult => r.selector) ∘
        resolveSelectorWithTimeout page fate (opts.timeoutMs.getD 3000) = id := by
      funext sel
      exact selector_of_rswt page fate _ sel
    rw [this, List.map_id]

/-- C1 (counterexample): for the input `[{css:"div"}, {ref:"r1"}]` under the
parallel strategy, the first returned result is for the ref selector, not for
the first input selector — input order is not preserved. -/
theorem C1_counterexample :
    (resolveSelectors page0 fate0 [.css "div", .ref "r1"]
        ⟨none, none, some .parallel⟩).map (fun r => r.selector) =
      [ElementSelector.ref "r1", ElementSelector.css "div"] ∧
    [ElementSelector.ref "r1", ElementSelector.css "div"] ≠
      [ElementSelector.css "div", ElementSelector.ref "r1"] := by
  exact ⟨rfl, by decide⟩

/-- C2 (corrected): with `continueOnError = false` the batch still never
aborts: `_resolveSelectorWithTimeout` catches every rejection (timeouts
included) and converts it into an error-valued result, so the strategy-level
rethrow is unreachable; the output is identical to `continueOnError = true`,
and every selector whose resolution fails is reported in-band with
confidence 0 and an error message. -/
theorem C2_amended (page : Page) (fate : ElementSelector → Fate)
    (sels : List ElementSelector) (tm : Option Nat) (strat : Option ExecutionStrategy) :
    resolveSelectors page fate sels ⟨tm, some false, strat⟩ =
      resolveSelectors page fate sels ⟨tm, some true, strat⟩ ∧
    ∀ r ∈ resolveSelectors page fate sels ⟨tm, some false, strat⟩,
      fate r.selector ≠ Fate.completes →
      r.confidence = 0 ∧ r.error.isSome = true := by
  constructor
  · rfl
  · intro r hr hfate
    rw [resolveSelectors_eq_map] at hr
    obtain ⟨sel, _, rfl⟩ := List.mem_map.mp hr
    rw [selector_of_rswt] at hfate
    unfold resolveSelectorWithTimeout
    cases h : fate sel with
    | completes => exact absurd h hfate
    | raises msg => exact ⟨rfl, rfl⟩
    | timesOut => exact ⟨rfl, rfl⟩

/-- Witness for C2_amended at a concrete timed-out selector. -/
theorem C2_amended_witness :
    rC2.confidence = 0 ∧ rC2.error.isSome = true :=
  (C2_amended page0 fateC2 [.css "#a"] none (some .parallel)).2 rC2
    (by decide) (by decide)

/-- C2 (counterexample): a batch containing only the timed-out `{css:"#a"}`,
run with `continueOnError = false`, returns normally with an error-valued
result for that selector (confidence 0, timeout message) instead of aborting
and rethrowing. -/
theorem C2_counterexample :
    resolveSelectors page0 fateC2 [.css "#a"] ⟨none, some false, some .parallel⟩ =
      [rC2] := by
  rfl

/-- High confidence is a success value. -/
theorem high_ne_zero : SelectorConfidence.HIGH ≠ 0 := by decide

/-- Medium confidence is a success value. -/
theorem medium_ne_zero : SelectorConfidence.MEDIUM ≠ 0 := by decide

/-- Failure confidence is not High. -/
theorem zero_ne_high : (0 : ℚ) ≠ SelectorConfidence.HIGH := by decide

/-- Failure confidence is not Medium. -/
theorem zero_ne_medium : (0 : ℚ) ≠ SelectorConfidence.MEDIUM := by decide

theorem resolveRefSelector_invariant (page : Page) (r : String) :
    ((resolveRefSelector page r).error.isSome ↔ (resolveRefSelector page r).confidence = 0) ∧
    (resolveRefSelector page r).alternatives = none := by
  unfold resolveRefSelector
  dsimp only
  split_ifs <;>
    simp_all [high_ne_zero, zero_ne_high]

theorem resolveRoleSelector_invariant (page : Page) (role : String) (text : Option String) :
    ((resolveRoleSelector page role text).error.isSome ↔
      (resolveRoleSelector page role text).confidence = 0) ∧
    ((resolveRoleSelector page role text).alternatives.isSome →
      selectorMatchCount page (.role role text) = 0) := by
  unfold resolveRoleSelector
  dsimp only
  split_ifs <;>
    simp_all [selectorMatchCount, high_ne_zero, medium_ne_zero, zero_ne_high, zero_ne_medium,
      jsTruthy]

theorem resolveCSSSelector_invariant (page : Page) (css : String) :
    ((resolveCSSSelector page css).error.isSome ↔ (resolveCSSSelector page css).confidence = 0) ∧
    (resolveCSSSelector page css).alternatives = none := by
  unfold resolveCSSSelector
  dsimp only
  split_ifs <;>
    simp_all [high_ne_zero, medium_ne_zero, zero_ne_high, zero_ne_medium]

theorem resolveTextSelector_invariant (page : Page) (text : String) (tag : Option String) :
    ((resolveTextSelector page text tag).error.isSome ↔
      (resolveTextSelector page text tag).confidence = 0) ∧
    ((resolveTextSelector page text tag).alternatives.isSome →
      selectorMatchCount page (.text text tag) = 0) := by
  unfold resolveTextSelector
  dsimp only
  split_ifs <;>
    simp_all [selectorMatchCount, high_ne_zero, medium_ne_zero, zero_ne_high, zero_ne_medium,
      jsTruthy]

/-- The invariant holds for every result of the timeout wrapper. -/
theorem rswt_invariant (page : Page) (fate : ElementSelector → Fate) (tm : Nat)
    (sel : ElementSelector) :
    ((resolveSelectorWithTimeout page fate tm sel).error.isSome ↔
      (resolveSelectorWithTimeout page fate tm sel).confidence = 0) ∧
    ((resolveSelectorWithTimeout page fate tm sel).alternatives.isSome →
      selectorMatchCount page sel = 0 ∧
      (isRoleSelector sel = true ∨ isTextSelector sel = true)) := by
  unfold resolveSelectorWithTimeout
  cases fate sel with
  | completes =>
    show ((resolveSingleSelectorInternal page sel).error.isSome ↔
        (resolveSingleSelectorInternal page sel).confidence = 0) ∧ _
    cases sel with
    | ref r =>
      obtain ⟨h1, h2⟩ := resolveRefSelector_invariant page r
      exact ⟨h1, fun h => by
        simp only [resolveSingleSelectorInternal] at h
        rw [h2] at h; simp at h⟩
    | role role text =>
      obtain ⟨h1, h2⟩ := resolveRoleSelector_invariant page role text
      exact ⟨h1, fun h => ⟨h2 (by simpa [resolveSingleSelectorInternal] using h), Or.inl rfl⟩⟩
    | css css =>
      obtain ⟨h1, h2⟩ := resolveCSSSelector_invariant page css
      exact ⟨h1, fun h => by
        simp only [resolveSingleSelectorInternal] at h
        rw [h2] at h; simp at h⟩
    | text text tag =>
      obtain ⟨h1, h2⟩ := resolveTextSelector_invariant page text tag
      exact ⟨h1, fun h => ⟨h2 (by simpa [resolveSingleSelectorInternal] using h), Or.inr rfl⟩⟩
  | raises msg => exact ⟨by simp [createErrorResult], by simp [createErrorResult]⟩
  | timesOut => exact ⟨by simp [createErrorResult], by simp [createErrorResult]⟩

/-- C9 (confirmed): every result any strategy of `resolveSelectors` produces
has `error` set exactly when its confidence is 0, and carries `alternatives`
only when it is a zero-match failure of a Role or Text selector. -/
theorem C9 (page : Page) (fate : ElementSelector → Fate)
    (sels : List ElementSelector) (opts : BatchResolutionOptions) :
    ∀ r ∈ resolveSelectors page fate sels opts,
      (r.error.isSome ↔ r.confidence = 0) ∧
      (r.alternatives.isSome →
        selectorMatchCount page r.selector = 0 ∧
        (isRoleSelector r.selector = true ∨ isTextSelector r.selector = true)) := by
  intro r hr
  rw [resolveSelectors_eq_map] at hr
  obtain ⟨sel, _, rfl⟩ := List.mem_map.mp hr
  rw [selector_of_rswt]
  exact rswt_invariant page fate _ sel

/-- Witness for C9 on the concrete not-found ref result. -/
theorem C9_witness :
    (rC9.error.isSome ↔ rC9.confidence = 0) ∧
    (rC9.alternatives.isSome →
      selectorMatchCount page0 rC9.selector = 0 ∧
      (isRoleSelector rC9.selector = true ∨ isTextSelector rC9.selector = true)) :=
  C9 page0 fate0 [.ref "r"] ⟨none, none, none⟩ rC9 (by decide)

theorem getMatchCandidates_length_le (loc : List Elem) (limit : Nat) :
    (getMatchCandidates loc limit).length ≤ limit := by
  unfold getMatchCandidates
  rw [List.length_map, List.enum_length, List.length_take]
  exact Nat.min_le_left _ _

theorem mem_of_filter_contains {allow : List String} {attrs : List (String × String)}
    {kv : String × String}
    (h : kv ∈ attrs.filter (fun kv => allow.contains kv.1)) : kv.1 ∈ allow := by
  have h2 := (List.mem_filter.mp h).2
  simpa using h2

theorem jsSubstring_length_le (s : String) (n : Nat) : (jsSubstring s n).length ≤ n := by
  show (s.toList.take n).length ≤ n
  rw [List.length_take]
  exact Nat.min_le_left _ _

/-- C6 (confirmed): a Role selector with no text filter and at least two
matches always fails with confidence 0 and an error enumerating at most 5
candidates, each annotated only with attributes from
{id, name, data-testid, aria-label} and a 50-character text preview; the same
role with a (truthy) text filter narrowing the matches to exactly one always
succeeds, with High confidence. -/
theorem C6 (page : Page) (role : String)
    (h2 : 2 ≤ (page.getByRole role).length) :
    (resolveRoleSelector page role none).confidence = 0 ∧
    (resolveRoleSelector page role none).error.isSome = true ∧
    (getMatchCandidates (page.getByRole role) 5).length ≤ 5 ∧
    (∀ c ∈ getMatchCandidates (page.getByRole role) 5,
      (∀ kv ∈ c.attributes.filter
          (fun kv => (["id", "name", "data-testid", "aria-label"] : List String).contains kv.1),
        kv.1 ∈ (["id", "name", "data-testid", "aria-label"] : List String)) ∧
      (jsSubstring c.text 50).length ≤ 50) ∧
    (∀ t : String, t ≠ "" →
      ((page.getByRole role).filter (fun e => page.elemHasText e t)).length = 1 →
      (resolveRoleSelector page role (some t)).error = none ∧
      (resolveRoleSelector page role (some t)).confidence = SelectorConfidence.HIGH) := by
  refine ⟨?_, ?_, getMatchCandidates_length_le _ _, ?_, ?_⟩
  · unfold resolveRoleSelector
    dsimp only
    split_ifs <;> simp_all [jsTruthy] <;> omega
  · unfold resolveRoleSelector
    dsimp only
    split_ifs <;> simp_all [jsTruthy] <;> omega
  · intro c _
    exact ⟨fun kv hkv => mem_of_filter_contains hkv, jsSubstring_length_le _ _⟩
  · intro t ht hcount
    unfold resolveRoleSelector
    dsimp only
    split_ifs <;> simp_all [jsTruthy]

/-- Witness for C6: two buttons fail without a text filter; text "OK"
narrows to one and succeeds. -/
theorem C6_witness :
    (resolveRoleSelector wPage "button" none).confidence = 0 ∧
    ((resolveRoleSelector wPage "button" (some "OK")).error = none ∧
      (resolveRoleSelector wPage "button" (some "OK")).confidence = SelectorConfidence.HIGH) :=
  ⟨(C6 wPage "button" (by decide)).1,
   (C6 wPage "button" (by decide)).2.2.2.2 "OK" (by decide) (by decide)⟩

/-- C7 (confirmed): a Text selector with a (truthy) tag filter and at least
one match succeeds with High (0.9) confidence; without a tag filter it
succeeds with Medium (0.7) exactly when the match count is between 1 and 3,
and with more than 3 matches it fails with confidence 0, an error message,
and a candidate list of at most 5 entries. -/
theorem C7 (page : Page) (text : String) (tag : Option String) :
    (jsTruthy tag = true →
      1 ≤ ((page.queryCss (tag.getD "")).filter (fun e => page.elemHasText e text)).length →
      (resolveTextSelector page text tag).confidence = SelectorConfidence.HIGH ∧
      (resolveTextSelector page text tag).error = none) ∧
    (jsTruthy tag = false →
      (((resolveTextSelector page text tag).confidence = SelectorConfidence.MEDIUM ∧
        (resolveTextSelector page text tag).error = none) ↔
        (1 ≤ (page.getByText text).length ∧ (page.getByText text).length ≤ 3)) ∧
      (3 < (page.getByText text).length →
        (resolveTextSelector page text tag).confidence = 0 ∧
        (resolveTextSelector page text tag).error.isSome = true ∧
        (getMatchCandidates (page.getByText text) 5).length ≤ 5)) := by
  constructor
  · intro htag hc
    unfold resolveTextSelector
    dsimp only
    split_ifs <;> simp_all
  · intro htag
    constructor
    · unfold resolveTextSelector
      dsimp only
      split_ifs <;>
        simp_all [medium_ne_zero, zero_ne_medium, high_ne_zero, zero_ne_high]
      rename_i hne _
      exact List.length_pos.mpr hne
    · intro hc
      refine ⟨?_, ?_, getMatchCandidates_length_le _ _⟩ <;>
        (unfold resolveTextSelector; dsimp only; split_ifs <;> simp_all <;> omega)

/-- Witness for C7: tag filter `div` with one match succeeds High; four
matches for "Submit" without a tag fail with confidence 0. -/
theorem C7_witness :
    ((resolveTextSelector wPage "Submit" (some "div")).confidence = SelectorConfidence.HIGH ∧
      (resolveTextSelector wPage "Submit" (some "div")).error = none) ∧
    ((resolveTextSelector wPage "Submit" none).confidence = 0 ∧
      (resolveTextSelector wPage "Submit" none).error.isSome = true ∧
      (getMatchCandidates (wPage.getByText "Submit") 5).length ≤ 5) :=
  ⟨(C7 wPage "Submit" (some "div")).1 (by decide) (by decide),
   ((C7 wPage "Submit" none).2 rfl).2 (by decide)⟩

/-- C8 (confirmed): a CSS selector with at least one match succeeds with High
(0.9) confidence whenever the expression starts with `#`, regardless of match
count; otherwise, if the expression is a single lowercase word and more than
one element matches, it fails with confidence 0 and a candidate list of at
most 5 entries annotated only with attributes from
{id, class, name, data-testid}; otherwise it succeeds with Medium (0.7). -/
theorem C8 (page : Page) (css : String)
    (h1 : 1 ≤ (page.queryCss css).length) :
    (jsStartsWith css "#" = true →
      (resolveCSSSelector page css).confidence = SelectorConfidence.HIGH ∧
      (resolveCSSSelector page css).error = none) ∧
    (jsStartsWith css "#" = false → GENERIC_TAG_SELECTOR css = true →
      2 ≤ (page.queryCss css).length →
      (resolveCSSSelector page css).confidence = 0 ∧
      (resolveCSSSelector page css).error.isSome = true ∧
      (getMatchCandidates (page.queryCss css) 5).length ≤ 5 ∧
      (∀ c ∈ getMatchCandidates (page.queryCss css) 5,
        ∀ kv ∈ c.attributes.filter
            (fun kv => (["id", "class", "name", "data-testid"] : List String).contains kv.1),
          kv.1 ∈ (["id", "class", "name", "data-testid"] : List String))) ∧
    (jsStartsWith css "#" = false →
      (GENERIC_TAG_SELECTOR css = true → (page.queryCss css).length = 1) →
      (resolveCSSSelector page css).confidence = SelectorConfidence.MEDIUM ∧
      (resolveCSSSelector page css).error = none) := by
  refine ⟨?_, ?_, ?_⟩
  · intro hhash
    unfold resolveCSSSelector
    dsimp only
    split_ifs <;> simp_all <;> omega
  · intro hhash hgen hcount
    refine ⟨?_, ?_, getMatchCandidates_length_le _ _,
      fun c _ kv hkv => mem_of_filter_contains hkv⟩ <;>
      (unfold resolveCSSSelector; dsimp only; split_ifs <;> simp_all <;> omega)
  · intro hhash hnotamb
    unfold resolveCSSSelector
    dsimp only
    split_ifs <;> simp_all [medium_ne_zero, zero_ne_medium] <;> omega

/-- Witness for C8: `#app` (one match) is High; generic `p` with two matches
fails; and a non-generic non-`#` selector path is Medium. -/
theorem C8_witness :
    ((resolveCSSSelector wPage "#app").confidence = SelectorConfidence.HIGH ∧
      (resolveCSSSelector wPage "#app").error = none) ∧
    ((resolveCSSSelector wPage "p").confidence = 0 ∧
      (resolveCSSSelector wPage "p").error.isSome = true) ∧
    ((resolveCSSSelector wPage "div").confidence = SelectorConfidence.MEDIUM ∧
      (resolveCSSSelector wPage "div").error = none) :=
  ⟨(C8 wPage "#app" (by decide)).1 (by decide),
   ⟨((C8 wPage "p" (by decide)).2.1 (by decide) (by decide) (by decide)).1,
    ((C8 wPage "p" (by decide)).2.1 (by decide) (by decide) (by decide)).2.1⟩,
   (C8 wPage "div" (by decide)).2.2 (by decide) (by decide)⟩

/-- C5 (corrected / refinement): `truncateHtml` cuts at `maxSize - 100`
UTF-16 code units (the JS string index), not UTF-8 bytes; it then backs up to
the last `'<'` exactly when that `'<'` comes after the last `'>'` of the cut
prefix (i.e. the raw cut would land inside a tag), keeps the raw code-unit
cut otherwise, and appends the `<!-- TRUNCATED -->` marker.  Stated as
equality with the independent reverse-scan formulation
`truncateHtmlAmended`. -/
theorem C5_amended (html : List Char) (maxSize : Nat) :
    truncateHtml html maxSize = truncateHtmlAmended html maxSize := by
  unfold truncateHtml truncateHtmlAmended
  split
  · rfl
  · dsimp only
    rw [safeCut_eq]

theorem byteSize_append (a b : List Char) : byteSize (a ++ b) = byteSize a + byteSize b := by
  simp [byteSize]

theorem byteSize_replicate (n : Nat) (c : Char) :
    byteSize (List.replicate n c) = n * utf8Len c := by
  induction n with
  | zero => simp [byteSize]
  | succ n ih =>
    simp only [List.replicate_succ, byteSize, List.map_cons, List.sum_cons] at *
    rw [ih, Nat.succ_mul]
    omega

theorem takeUnits_replicate_of_le (k n : Nat) (c : Char) (hu : utf16Len c = 1)
    (h : n ≤ k) : takeUnits k (List.replicate n c) = List.replicate n c := by
  induction n generalizing k with
  | zero => exact takeUnits_nil k
  | succ n ih =>
    rw [List.replicate_succ]
    unfold takeUnits
    rw [hu, if_pos (by omega), ih (k - 1) (by omega)]

theorem byteSize_takeBytes_le (k : Nat) (s : List Char) : byteSize (takeBytes k s) ≤ k := by
  induction s generalizing k with
  | nil => simp [takeBytes, byteSize]
  | cons c rest ih =>
    unfold takeBytes
    split
    · rename_i hc
      have := ih (k - utf8Len c)
      simp only [byteSize, List.map_cons, List.sum_cons] at *
      omega
    · simp [byteSize]

theorem byteSize_truncationMarker : byteSize truncationMarker = 18 := by decide

theorem notMem_replicate_of_ne {c x : Char} (n : Nat) (h : c ≠ x) :
    c ∉ List.replicate n x := by
  intro hm
  exact h (List.eq_of_mem_replicate hm)

/-- The concrete evaluation of `truncateHtml` on 400 three-byte characters
with a 1024-byte budget: the code-unit cut at index 924 keeps the whole
string, and the marker is appended. -/
theorem truncateHtml_chA : truncateHtml chA 1024 = (chA ++ truncationMarker, true) := by
  have hsize : byteSize chA = 1200 := by
    rw [chA, byteSize_replicate]
    rfl
  have htake : takeUnits (1024 - 100) chA = chA := by
    rw [chA]
    exact takeUnits_replicate_of_le _ _ _ (by decide) (by omega)
  have hlt : lastIndexOfUnit '<' (takeUnits (1024 - 100) chA) = -1 := by
    rw [htake, chA]
    exact lastIndexOfUnit_notMem _ _ (notMem_replicate_of_ne 400 (by decide))
  have hgt : lastIndexOfUnit '>' (takeUnits (1024 - 100) chA) = -1 := by
    rw [htake, chA]
    exact lastIndexOfUnit_notMem _ _ (notMem_replicate_of_ne 400 (by decide))
  unfold truncateHtml
  rw [if_neg (by omega)]
  dsimp only
  rw [hlt, hgt, if_neg (by omega), htake]

/-- C5 (counterexample): 400 three-byte characters (1200 UTF-8 bytes) under a
1024-byte budget.  A cut at `budget - 100 = 924` *bytes* keeps at most 924
bytes of content (942 with the marker); the code cuts at 924 *code units*,
which here keeps all 400 characters, so the output differs from the claimed
one and still weighs 1218 bytes — above the budget. -/
theorem C5_counterexample :
    (truncateHtml chA 1024).2 = true ∧
    truncateHtml chA 1024 ≠ (takeBytes (1024 - 100) chA ++ truncationMarker, true) ∧
    byteSize (truncateHtml chA 1024).1 = 1218 ∧
    byteSize (takeBytes (1024 - 100) chA ++ truncationMarker) ≤ 942 := by
  have hsize : byteSize chA = 1200 := by
    rw [chA, byteSize_replicate]
    rfl
  have h1 : byteSize (chA ++ truncationMarker) = 1218 := by
    rw [byteSize_append, hsize, byteSize_truncationMarker]
  have h2 : byteSize (takeBytes (1024 - 100) chA ++ truncationMarker) ≤ 942 := by
    rw [byteSize_append, byteSize_truncationMarker]
    have := byteSize_takeBytes_le (1024 - 100) chA
    omega
  refine ⟨by rw [truncateHtml_chA], ?_, by rw [truncateHtml_chA]; exact h1, h2⟩
  intro heq
  have := congrArg (fun p => byteSize p.1) heq
  rw [truncateHtml_chA] at this
  simp only at this
  rw [h1] at this
  omega

/-- An oversized input always comes back with the marker appended. -/
theorem truncateHtml_marker (html : List Char) (m : Nat) (h : m < byteSize html) :
    ∃ p, (truncateHtml html m).1 = p ++ truncationMarker := by
  unfold truncateHtml
  rw [if_neg (by omega)]
  exact ⟨_, rfl⟩

theorem includesMarker_append (p : List Char) :
    includesMarker (p ++ truncationMarker) = true := by
  unfold includesMarker
  simp only [decide_eq_true_eq]
  exact (List.suffix_append p truncationMarker).isInfix

/-- The accept loop never lets the running total exceed `maxSize`. -/
theorem acceptLoop_totalSize_le (maxSize : Nat) (outcomes : List (Nat × ProcessOutcome))
    (st : ProcessAllResult) (h : st.totalSizeBytes ≤ maxSize) :
    (acceptLoop maxSize outcomes st).totalSizeBytes ≤ maxSize := by
  induction outcomes generalizing st with
  | nil => exact h
  | cons p rest ih =>
    obtain ⟨i, o⟩ := p
    cases o with
    | failed => exact ih _ h
    | noElement => exact ih _ h
    | ok e =>
      simp only [acceptLoop]
      split
      · rename_i hfit
        exact ih _ hfit
      · exact h

/-- If the loop did not report truncation, it accepted everything: nothing was
skipped, the total is the sum of all `ok` sizes, and no accepted html carries
the marker. -/
theorem acceptLoop_truncated_false (maxSize : Nat) (outcomes : List (Nat × ProcessOutcome))
    (st : ProcessAllResult)
    (h : (acceptLoop maxSize outcomes st).truncated = false) :
    st.truncated = false ∧
    (acceptLoop maxSize outcomes st).totalSizeBytes = st.totalSizeBytes + sumOkSizes outcomes ∧
    ∀ p ∈ outcomes, ∀ e, p.2 = ProcessOutcome.ok e → includesMarker e.html = false := by
  induction outcomes generalizing st with
  | nil =>
    refine ⟨h, by simp [acceptLoop, sumOkSizes], by simp⟩
  | cons p rest ih =>
    obtain ⟨i, o⟩ := p
    cases o with
    | failed =>
      simp only [acceptLoop] at h ⊢
      obtain ⟨h1, h2, h3⟩ := ih _ h
      refine ⟨h1, ?_, ?_⟩
      · simpa [sumOkSizes] using h2
      · intro q hq e he
        rcases List.mem_cons.mp hq with rfl | hq
        · cases he
        · exact h3 q hq e he
    | noElement =>
      simp only [acceptLoop] at h ⊢
      obtain ⟨h1, h2, h3⟩ := ih _ h
      refine ⟨h1, ?_, ?_⟩
      · simpa [sumOkSizes] using h2
      · intro q hq e he
        rcases List.mem_cons.mp hq with rfl | hq
        · cases he
        · exact h3 q hq e he
    | ok e =>
      simp only [acceptLoop] at h ⊢
      split at h
      · rename_i hfit
        rw [if_pos hfit]
        obtain ⟨h1, h2, h3⟩ := ih _ h
        simp only [Bool.or_eq_false_iff] at h1
        refine ⟨h1.1, ?_, ?_⟩
        · rw [h2]
          simp [sumOkSizes]
          omega
        · intro q hq e' he'
          rcases List.mem_cons.mp hq with rfl | hq
          · cases he'
            exact h1.2
          · exact h3 q hq e' he'
      · simp at h

/-- When the produced outcome carries no marker (and the budget is positive),
the per-element size equals the pre-truncation serialized size. -/
theorem processSelectorResult_size_eq (sr : SelectorResolutionResult) (ec : ElementContent)
    (sel : ElementSelector) (maxSize : Nat) (hm : 0 < maxSize)
    (hmk : ∀ e, processSelectorResult sr ec sel maxSize = .ok e → includesMarker e.html = false) :
    (match processSelectorResult sr ec sel maxSize with
      | .ok e => e.metadata.sizeBytes
      | _ => 0) = rowPreSize sr ec := by
  by_cases hfail : (sr.error.isSome || sr.confidence == 0) = true
  · simp [processSelectorResult, rowPreSize, hfail]
  · rw [Bool.not_eq_true] at hfail
    cases hecf : ec.fails with
    | some msg =>
      simp [processSelectorResult, rowPreSize, extractElementHTML, hfail, hecf]
    | none =>
      by_cases hfound : ec.found = false
      · simp [processSelectorResult, rowPreSize, extractElementHTML, hfail, hecf, hfound]
      · rw [Bool.not_eq_false] at hfound
        by_cases hbig : maxSize < byteSize ec.serialized
        · exfalso
          have hout : processSelectorResult sr ec sel maxSize =
              .ok { html := (truncateHtml ec.serialized maxSize).1
                    metadata := { tagName := ec.tagName, attributes := ec.attributes,
                                  textContent := ec.textContent,
                                  sizeBytes := byteSize (truncateHtml ec.serialized maxSize).1 }
                    matchedSelector := sel } := by
            simp [processSelectorResult, extractElementHTML, hfail, hecf, hfound, hbig, hm]
          have hmarked := hmk _ hout
          obtain ⟨p, hp⟩ := truncateHtml_marker ec.serialized maxSize hbig
          rw [hp] at hmarked
          rw [includesMarker_append] at hmarked
          cases hmarked
        · have hcond : (decide (maxSize < byteSize ec.serialized) && decide (0 < maxSize)) = false := by
            simp [hbig]
          simp [processSelectorResult, rowPreSize, extractElementHTML, hfail, hecf, hfound, hcond]

/-- Source `_processAllSelectors` reports `truncated = true` whenever the total
pre-truncation serialized size exceeds a positive budget. -/
theorem processAll_truncated_of_pre (selectorResults : List SelectorResolutionResult)
    (selectors : List ElementSelector) (contentOf : Nat → ElementContent)
    (maxSize : Nat) (hm : 0 < maxSize)
    (hpre : maxSize < preTruncationTotal selectorResults selectors contentOf) :
    (processAllSelectors selectorResults selectors contentOf (some maxSize)).truncated = true := by
  by_contra h
  rw [Bool.not_eq_true] at h
  unfold processAllSelectors at h
  dsimp only [Option.getD] at h
  obtain ⟨-, htot, hmk⟩ := acceptLoop_truncated_false _ _ _ h
  have hbound := acceptLoop_totalSize_le maxSize
    ((selectorResults.zip selectors).enum.map
      (fun p => (p.1, processSelectorResult p.2.1 (contentOf p.1) p.2.2 maxSize)))
    initProcessState (by simp [initProcessState])
  have hsum : sumOkSizes
      ((selectorResults.zip selectors).enum.map
        (fun p => (p.1, processSelectorResult p.2.1 (contentOf p.1) p.2.2 maxSize))) =
      preTruncationTotal selectorResults selectors contentOf := by
    unfold sumOkSizes preTruncationTotal
    rw [List.map_map]
    congr 1
    apply List.map_congr_left
    intro q hq
    apply processSelectorResult_size_eq _ _ _ _ hm
    intro e he
    exact hmk (q.1, processSelectorResult q.2.1 (contentOf q.1) q.2.2 maxSize)
      (List.mem_map.mpr ⟨q, hq, rfl⟩) e he
  rw [hsum] at htot
  have hinit : initProcessState.totalSizeBytes = 0 := rfl
  rw [hinit] at htot
  omega

/-- Validated options always carry `maxSize ≥ 1024` (zod lower bound). -/
theorem validate_maxSize_lower (o : HTMLInspectionOptionsRaw) (v : HTMLInspectionOptionsV)
    (h : validateHTMLInspectionOptions o = .ok v) : 1024 ≤ v.maxSize := by
  unfold validateHTMLInspectionOptions at h
  repeat' split at h
  all_goals cases h
  all_goals dsimp only
  all_goals omega

/-- C3 (confirmed): whenever the total pre-truncation serialized size (UTF-8
bytes) exceeds the validated `maxSize`, the returned `HTMLInspectionResult`
has `truncated = true` and `totalSizeBytes ≤ maxSize`. -/
theorem C3 (env : ExtractEnv) (options : HTMLInspectionOptionsRaw)
    (v : HTMLInspectionOptionsV)
    (hv : validateHTMLInspectionOptions options = .ok v)
    (hrun : env.runFailure = none)
    (hpre : v.maxSize < preTruncationTotal
      (resolveSelectors env.page env.fate v.selectors { continueOnError := some true })
      v.selectors env.contentOf) :
    ∃ res, extractHTML env options = .ok res ∧ res.truncated = true ∧
      res.totalSizeBytes ≤ v.maxSize := by
  have h1024 := validate_maxSize_lower options v hv
  unfold extractHTML
  rw [hv, hrun]
  dsimp only
  refine ⟨_, rfl, ?_, ?_⟩
  · exact processAll_truncated_of_pre _ _ _ _ (by omega) hpre
  · unfold processAllSelectors
    dsimp only [Option.getD]
    exact acceptLoop_totalSize_le _ _ _ (by simp [initProcessState])

/-- Witness for C3: one resolved selector whose serialized content weighs
1100 bytes against a validated 1024-byte budget. -/
theorem C3_witness :
    validateHTMLInspectionOptions optC3 = .ok vC3 ∧
    (∃ res, extractHTML envC3 optC3 = .ok res ∧ res.truncated = true ∧
      res.totalSizeBytes ≤ vC3.maxSize) := by
  refine ⟨rfl, C3 envC3 optC3 vC3 rfl rfl ?_⟩
  have hres : resolveSelectors envC3.page envC3.fate vC3.selectors
      { continueOnError := some true } = [srBig] := rfl
  have hr : rowPreSize srBig contentBig = 1100 := by
    have hcond : (srBig.error.isSome || srBig.confidence == 0) = false := by decide
    have hbytes : byteSize (List.replicate 1100 'a') = 1100 := by
      rw [byteSize_replicate]
      decide
    unfold rowPreSize
    rw [hcond]
    rw [if_neg (by simp : ¬ (false = true))]
    have h1 : contentBig.fails = none := rfl
    rw [h1]
    have h2 : contentBig.found = true := rfl
    rw [h2, if_pos rfl]
    have h3 : contentBig.serialized = List.replicate 1100 'a' := rfl
    rw [h3]
    exact hbytes
  unfold preTruncationTotal
  rw [hres]
  have henum : (([srBig].zip vC3.selectors).enum) =
      [(0, (srBig, ElementSelector.css "#a"))] := rfl
  rw [henum]
  simp only [List.map_cons, List.map_nil, List.sum_cons, List.sum_nil]
  have hc : envC3.contentOf 0 = contentBig := rfl
  rw [hc, hr]
  decide

theorem includesMarker_replicate (n : Nat) (c : Char) (hc : c ≠ '<') :
    includesMarker (List.replicate n c) = false := by
  unfold includesMarker
  simp only [decide_eq_false_iff_not]
  intro hinf
  have hmem : '<' ∈ List.replicate n c :=
    hinf.subset (by decide : '<' ∈ truncationMarker)
  exact hc (List.eq_of_mem_replicate hmem).symm

/-- Generalized break lemma: once the loop meets an element that does not fit
the remaining budget, it returns the state of the prefix with `truncated`
forced to `true` — the element and everything after it are dropped. -/
theorem acceptLoop_break (maxSize : Nat) (pre post : List (Nat × ProcessOutcome))
    (k : Nat) (e : ElementInspectionResult) (st : ProcessAllResult)
    (h1 : loopBreaks maxSize pre st.totalSizeBytes = false)
    (h2 : maxSize < (acceptLoop maxSize pre st).totalSizeBytes + e.metadata.sizeBytes) :
    acceptLoop maxSize (pre ++ (k, .ok e) :: post) st =
      { acceptLoop maxSize pre st with truncated := true } := by
  induction pre generalizing st with
  | nil =>
    simp only [List.nil_append, acceptLoop]
    rw [if_neg (by simpa [acceptLoop] using h2)]
  | cons p rest ih =>
    obtain ⟨i, o⟩ := p
    cases o with
    | failed =>
      simp only [List.cons_append, acceptLoop] at h1 h2 ⊢
      exact ih _ h1 h2
    | noElement =>
      simp only [List.cons_append, acceptLoop] at h1 h2 ⊢
      exact ih _ h1 h2
    | ok e' =>
      by_cases hfit : st.totalSizeBytes + e'.metadata.sizeBytes ≤ maxSize
      · have hstep : ∀ tail, acceptLoop maxSize ((i, ProcessOutcome.ok e') :: tail) st =
            acceptLoop maxSize tail
              { st with
                elements := st.elements ++ [(i, e')]
                totalSizeBytes := st.totalSizeBytes + e'.metadata.sizeBytes
                elementsFound := st.elementsFound + 1
                totalDepth := st.totalDepth + calculateElementDepth e'
                truncated := st.truncated || includesMarker e'.html } := by
          intro tail
          simp only [acceptLoop]
          rw [if_pos hfit]
        rw [List.cons_append, hstep (rest ++ (k, ProcessOutcome.ok e) :: post), hstep rest]
        simp only [loopBreaks] at h1
        rw [if_pos hfit] at h1
        rw [hstep rest] at h2
        exact ih _ h1 h2
      · simp only [loopBreaks] at h1
        rw [if_neg hfit] at h1
        cases h1

/-- C4 (corrected): the accept loop walks the outcomes in order with a
running total and accepts each element that fits `maxSize` minus the running
total; but the first element that does not fit is dropped entirely — it is
*not* truncated against the remaining budget (per-element truncation ran
earlier, against the full budget) — the result is marked `truncated = true`,
and every outcome after it is skipped: the final state is exactly the state
after the fitting prefix with `truncated` forced on. -/
theorem C4_amended (maxSize : Nat) (pre post : List (Nat × ProcessOutcome))
    (k : Nat) (e : ElementInspectionResult)
    (h1 : loopBreaks maxSize pre 0 = false)
    (h2 : maxSize < (acceptLoop maxSize pre initProcessState).totalSizeBytes +
      e.metadata.sizeBytes) :
    acceptLoop maxSize (pre ++ (k, .ok e) :: post) initProcessState =
      { acceptLoop maxSize pre initProcessState with truncated := true } :=
  acceptLoop_break maxSize pre post k e initProcessState h1 h2

/-- Evaluating the accepted prefix of the C4 scenario: the 600-byte element
is accepted, nothing is truncated. -/
theorem acceptLoop_preC4 :
    acceptLoop 1024 preC4 initProcessState =
      { elements := [(0, eA)], totalSizeBytes := 600, truncated := false,
        elementsFound := 1, selectorsNotFound := 0, totalDepth := 1 } := by
  have hma : includesMarker eA.html = false := by
    have h : eA.html = List.replicate 600 'a' := rfl
    rw [h]
    exact includesMarker_replicate 600 'a' (by decide)
  show acceptLoop 1024 [(0, ProcessOutcome.ok eA)] initProcessState = _
  simp only [acceptLoop]
  rw [if_pos (by decide : initProcessState.totalSizeBytes + eA.metadata.sizeBytes ≤ 1024)]
  simp [initProcessState, hma, calculateElementDepth]
  rfl

/-- Witness for C4_amended: prefix `[(0, eA)]` (600 bytes accepted), then a
second 600-byte element that no longer fits the 1024-byte budget. -/
theorem C4_amended_witness :
    acceptLoop 1024 (preC4 ++ (1, ProcessOutcome.ok eB) :: []) initProcessState =
      { acceptLoop 1024 preC4 initProcessState with truncated := true } :=
  C4_amended 1024 preC4 [] 1 eB (by decide)
    (by rw [acceptLoop_preC4]; decide)

theorem byteSize_replicate600a : byteSize (List.replicate 600 'a') = 600 := by
  rw [byteSize_replicate]
  decide

theorem byteSize_replicate600b : byteSize (List.replicate 600 'b') = 600 := by
  rw [byteSize_replicate]
  decide

theorem extractC4_0 :
    extractElementHTML (contentC4 0) (ElementSelector.css "div") 1024 = some eA := by
  have hc0 : contentC4 0 =
      ⟨true, "div", [], "", List.replicate 600 'a', none⟩ := rfl
  rw [hc0]
  unfold extractElementHTML
  dsimp only
  rw [byteSize_replicate600a]
  rw [if_neg (by decide)]
  rfl

theorem extractC4_1 :
    extractElementHTML (contentC4 1) (ElementSelector.css "p") 1024 = some eB := by
  have hc1 : contentC4 1 =
      ⟨true, "p", [], "", List.replicate 600 'b', none⟩ := rfl
  rw [hc1]
  unfold extractElementHTML
  dsimp only
  rw [byteSize_replicate600b]
  rw [if_neg (by decide)]
  rfl

theorem processC4_0 :
    processSelectorResult srA (contentC4 0) (ElementSelector.css "div") 1024 =
      ProcessOutcome.ok eA := by
  unfold processSelectorResult
  have hcond : (srA.error.isSome || srA.confidence == 0) = false := by decide
  rw [hcond]
  rw [if_neg (by simp)]
  rw [extractC4_0]

theorem processC4_1 :
    processSelectorResult srB (contentC4 1) (ElementSelector.css "p") 1024 =
      ProcessOutcome.ok eB := by
  unfold processSelectorResult
  have hcond : (srB.error.isSome || srB.confidence == 0) = false := by decide
  rw [hcond]
  rw [if_neg (by simp)]
  rw [extractC4_1]

/-- C4 (counterexample): two resolved selectors whose serialized contents are
600 bytes each, against `maxSize = 1024`.  Each fits the full budget on its
own, so no per-element truncation fires; in the accept loop the second node
does not fit the remaining 424 bytes.  The claim requires that second node to
be truncated (via §4.6a) and kept; the code instead drops it — the result
contains only index 0 — while flagging `truncated = true`. -/
theorem C4_counterexample :
    runC4.elements.map (fun p => p.1) = [0] ∧ runC4.truncated = true := by
  have hrun : runC4 = acceptLoop 1024
      [(0, ProcessOutcome.ok eA), (1, ProcessOutcome.ok eB)] initProcessState := by
    unfold runC4 processAllSelectors
    dsimp only [Option.getD]
    have henum : (([srA, srB].zip
        [ElementSelector.css "div", ElementSelector.css "p"]).enum) =
        [(0, (srA, ElementSelector.css "div")), (1, (srB, ElementSelector.css "p"))] := rfl
    rw [henum]
    simp only [List.map_cons, List.map_nil]
    rw [processC4_0, processC4_1]
  have hbreak : acceptLoop 1024
      (preC4 ++ (1, ProcessOutcome.ok eB) :: []) initProcessState =
      { acceptLoop 1024 preC4 initProcessState with truncated := true } :=
    acceptLoop_break 1024 preC4 [] 1 eB initProcessState (by decide)
      (by rw [acceptLoop_preC4]; decide)
  rw [hrun]
  have hlist : [(0, ProcessOutcome.ok eA), (1, ProcessOutcome.ok eB)] =
      preC4 ++ (1, ProcessOutcome.ok eB) :: [] := rfl
  rw [hlist, hbreak, acceptLoop_preC4]
  exact ⟨rfl, rfl⟩

/-- C10 (corrected): for every input whose options pass schema validation,
any failure inside the `try` block makes `extractHTML` return the well-formed
fallback result: empty elements, `totalSizeBytes = 0`, `truncated = false`,
`selectorsNotFound` equal to the number of input selectors, and a suggestion
carrying the failure message.  (Option validation itself runs *before* the
`try`, so its errors propagate to the caller — see the counterexample.) -/
theorem C10_amended (env : ExtractEnv) (options : HTMLInspectionOptionsRaw)
    (v : HTMLInspectionOptionsV) (msg : String)
    (hv : validateHTMLInspectionOptions options = .ok v)
    (hrun : env.runFailure = some msg) :
    extractHTML env options = .ok
      { elements := []
        totalSizeBytes := 0
        truncated := false
        suggestions := some ["Extraction failed: " ++ msg]
        timing := ⟨0, 0, 0⟩
        stats := { elementsFound := 0
                   selectorsNotFound := options.selectors.length
                   averageDepth := 0 } } := by
  unfold extractHTML
  rw [hv, hrun]

/-- Witness for C10_amended: an engine rejection inside the `try` block on
valid one-selector options. -/
theorem C10_amended_witness :
    extractHTML envC10 optC10 = .ok
      { elements := []
        totalSizeBytes := 0
        truncated := false
        suggestions := some ["Extraction failed: " ++ "engine crashed"]
        timing := ⟨0, 0, 0⟩
        stats := { elementsFound := 0
                   selectorsNotFound := optC10.selectors.length
                   averageDepth := 0 } } :=
  C10_amended envC10 optC10 ⟨[.css "#a"], 2, 50000⟩ "engine crashed" rfl rfl

/-- C10 (counterexample): with an empty selector list the zod validation
throws *before* the `try` block, so `extractHTML` propagates the error to the
caller instead of returning the fallback `HTMLInspectionResult` — it does not
hold that every internal failure yields a well-formed result. -/
theorem C10_counterexample :
    extractHTML envC10 { selectors := [] } =
      .error "Array must contain at least 1 element(s)" := rfl
